import Mathlib

/-!
CSES — City Security Evaluation System: a verification development.

A shallow embedding of `demo.py` (single-file threat-detection pipeline) and
proofs of its specified properties.

Modelling conventions:
* Python floats are embedded as exact rationals (`ℚ`).  Every numeric constant
  of the source (`0.1`, `0.5`, `0.7`, `0.75`, `0.95`, `0.999`, `0.0001`, the
  likelihood multipliers) is an exact decimal, and every comparison relevant to
  the claims has a wide margin, so rational arithmetic is faithful.
* The source computes Euclidean distances and speeds with `**0.5` (square
  root).  Every use of such a quantity is an order comparison against a
  non-negative threshold (`dist < 50`, `dist_curr > dist_prev`,
  `speed < 0.5`, `speed > 0.5`), and squaring is strictly monotone on
  non-negatives, so we embed the *squared* quantity and compare against the
  squared threshold.  In particular "speed = 0" is equivalent to
  "squared speed = 0".
* Python `dict`s are embedded as insertion-ordered association lists:
  assignment to a present key replaces in place, to a fresh key appends at the
  end, and iteration is list order — exactly Python's iteration-order
  guarantees.
* Python integer `//` is `Int.fdiv` (floor division).
-/

namespace CSES

set_option maxRecDepth 100000

/-! ## Configuration (the `CONFIG` dict; `PRUNE_AGE_S` is never read) -/

def PIXELS_TO_METERS : ℚ := 0.1
def STOP_SPEED_THRESHOLD_MPS : ℚ := 0.5
def ANOMALY_THRESHOLD : ℚ := 0.7
def ALERT_PROBABILITY_THRESHOLD : ℚ := 0.75

/-! ## Data model -/

abbrev Pos := ℚ × ℚ

structure Sample where
  pos : Pos
  time : ℚ
deriving Repr, DecidableEq

/-- A tracked object: `{'obj_id': ..., 'label': ..., 'history': [...]}`.
The `last_updated` field of the source is written but never read, so it is
omitted. -/
structure Track where
  obj_id : ℤ
  label : String
  history : List Sample
deriving Repr, DecidableEq

/-- An active scenario `{'playbook': name, 'state_index': i}`, with the
optional `linked_obj_id` key added by `_check_driver_exit`. -/
structure Scenario where
  playbook : String
  state_index : ℕ
  linked_obj_id : Option ℤ
deriving Repr, DecidableEq

/-! ## Insertion-ordered association lists (Python dict semantics) -/

def alistGet? {κ α : Type} [DecidableEq κ] : List (κ × α) → κ → Option α
  | [], _ => none
  | (k', v) :: rest, k => if k' = k then some v else alistGet? rest k

def alistGetD {κ α : Type} [DecidableEq κ] (l : List (κ × α)) (k : κ) (d : α) : α :=
  (alistGet? l k).getD d

/-- Assignment `d[k] = v`: replace in place if present, else append at the end. -/
def alistSet {κ α : Type} [DecidableEq κ] : List (κ × α) → κ → α → List (κ × α)
  | [], k, v => [(k, v)]
  | (k', v') :: rest, k, v =>
      if k' = k then (k, v) :: rest else (k', v') :: alistSet rest k v

/-- Modify the value stored at key `k` in place. -/
def alistModify {κ α : Type} [DecidableEq κ] (l : List (κ × α)) (k : κ) (f : α → α) :
    List (κ × α) :=
  l.map (fun p => if p.1 = k then (p.1, f p.2) else p)

/-! ## Geometry: `BaselineModel._is_point_in_polygon` (ray casting) -/

/-- One iteration of the crossing-number loop, for the edge `p1 → p2`.
In the source `xinters` is assigned only under `p1y != p2y`, but the guarding
condition `y > min(p1y, p2y) and y <= max(p1y, p2y)` already forces
`p1y != p2y`, so the assignment is unconditional here (the division is then
never by zero on any reachable evaluation). -/
def pipStep (x y : ℚ) (p1 p2 : Pos) (inside : Bool) : Bool :=
  if y > min p1.2 p2.2 ∧ y ≤ max p1.2 p2.2 ∧ x ≤ max p1.1 p2.1 then
    let xinters := (y - p1.2) * (p2.1 - p1.1) / (p2.2 - p1.2) + p1.1
    if p1.1 = p2.1 ∨ x ≤ xinters then !inside else inside
  else inside

def pipLoop (x y : ℚ) : Pos → List Pos → Bool → Bool
  | _, [], inside => inside
  | p1, p2 :: rest, inside => pipLoop x y p2 rest (pipStep x y p1 p2 inside)

/-- The loop `for i in range(n + 1): p2 = polygon[i % n]` visits
`polygon[0], polygon[1], …, polygon[n-1], polygon[0]`, starting from
`p1 = polygon[0]`.  (The source raises on an empty polygon; the polygons are
fixed non-empty configuration.) -/
def is_point_in_polygon (point : Pos) (polygon : List Pos) : Bool :=
  match polygon with
  | [] => false
  | p0 :: _ => pipLoop point.1 point.2 p0 (polygon ++ [p0]) false

/-! ## Layer 2: `BaselineModel` -/

def normal_road_polygon : List Pos := [(0, 220), (1000, 220), (1000, 300), (0, 300)]

def normal_stopping_polygon : List Pos := [(800, 220), (900, 220), (900, 300), (800, 300)]

/-- Source `calculate_anomaly_score`.  The source reads `history[-1]` (raising on an
empty history, which never occurs in the pipeline: every track is created with
its first sample); we return 0 on an empty history. -/
def calculate_anomaly_score (track : Track) (is_stopped : Bool) : ℚ :=
  match track.history.getLast? with
  | none => 0
  | some s =>
      let location_anomaly : ℚ :=
        if !(is_point_in_polygon s.pos normal_road_polygon) then 0.95 else 0
      let stop_anomaly : ℚ :=
        if is_stopped && !(is_point_in_polygon s.pos normal_stopping_polygon) then 0.95 else 0
      max location_anomaly stop_anomaly

/-! ## Layer 3: `BehavioralEngine` -/

/-- The three trigger lambdas of the `VBIED_DROPOFF` playbook, as a closed
enumeration. -/
inductive Trigger
  | stoppedAnomalous
  | driverExit
  | driverSeparation
deriving Repr, DecidableEq

structure Playbook where
  states : List String
  triggers : List Trigger
deriving Repr, DecidableEq

def playbooks : List (String × Playbook) :=
  [("VBIED_DROPOFF",
    { states := ["APPROACH", "STOPPED_IN_ANOMALOUS_ZONE", "DRIVER_EXIT", "SEPARATION"],
      triggers := [.stoppedAnomalous, .driverExit, .driverSeparation] })]

/-- The per-frame shared context dict: all current tracks, squared speeds per
object, and the current object's anomaly score / stop flag. -/
structure Context where
  all_tracks : List (ℤ × Track)
  speeds_sq : List (ℤ × ℚ)
  anomaly_score : ℚ
  is_stopped : Bool

def distSq (a b : Pos) : ℚ := (a.1 - b.1) ^ 2 + (a.2 - b.2) ^ 2

/-- The last two samples `(history[-2], history[-1])`, or `none` when
`len(history) < 2`. -/
def last2 {α : Type} : List α → Option (α × α)
  | [] => none
  | [_] => none
  | [a, b] => some (a, b)
  | _ :: b :: c :: rest => last2 (b :: c :: rest)

/-- The search loop of `_check_driver_exit`: the first other track that is a
pedestrian with a history of length exactly 1 (`history = [s]`, so
`history[-1] = s`) within 50 pixels of the vehicle.  Returns its id. -/
def check_driver_exit_find (vehicle_pos : Pos) : List (ℤ × Track) → Option ℤ
  | [] => none
  | (_, other) :: rest =>
      match other.history with
      | [s] =>
          if other.label = "pedestrian" ∧ distSq vehicle_pos s.pos < 50 ^ 2 then
            some other.obj_id
          else check_driver_exit_find vehicle_pos rest
      | _ => check_driver_exit_find vehicle_pos rest

/-- Source `_check_driver_separation`.  Here `context['speeds'][ped_id]` is read with
default 0 (the key is always present: speeds are computed for every tracked
object and `ped_id ∈ all_tracks` has been checked). -/
def check_driver_separation (scenario : Scenario) (vehicle_track : Track)
    (context : Context) : Bool :=
  match scenario.linked_obj_id with
  | none => false
  | some ped_id =>
      match alistGet? context.all_tracks ped_id with
      | none => false
      | some ped_track =>
          match last2 ped_track.history, vehicle_track.history.getLast? with
          | some pq, some v =>
              let dist_sq_curr := distSq v.pos pq.2.pos
              let dist_sq_prev := distSq v.pos pq.1.pos
              decide (dist_sq_curr > dist_sq_prev ∧
                alistGetD context.speeds_sq ped_id 0 > STOP_SPEED_THRESHOLD_MPS ^ 2)
          | _, _ => false

/-- Evaluate `playbook['triggers'][i]`.  The driver-exit trigger mutates the
scenario table (writes `linked_obj_id` on the vehicle's scenario), so the
possibly-updated table is returned alongside the result. -/
def eval_trigger (scenarios : List (ℤ × Scenario)) (scenario : Scenario) (t : Trigger)
    (track : Track) (context : Context) : Bool × List (ℤ × Scenario) :=
  match t with
  | .stoppedAnomalous =>
      (context.is_stopped && decide (context.anomaly_score > ANOMALY_THRESHOLD), scenarios)
  | .driverExit =>
      match track.history.getLast? with
      | none => (false, scenarios)
      | some v =>
          match check_driver_exit_find v.pos context.all_tracks with
          | some ped_id =>
              (true, alistModify scenarios track.obj_id
                (fun s => { s with linked_obj_id := some ped_id }))
          | none => (false, scenarios)
  | .driverSeparation => (check_driver_separation scenario track context, scenarios)

def vehicle_labels : List String := ["van", "truck", "car"]

/-- The scenario-starting loop of `update_scenarios`:
`for name, playbook in self.playbooks.items(): if label in [...]: ...`. -/
def start_scenario (scenarios : List (ℤ × Scenario)) (track : Track) :
    List (ℤ × Scenario) :=
  playbooks.foldl
    (fun sc p =>
      if track.label ∈ vehicle_labels then
        alistSet sc track.obj_id ⟨p.1, 0, none⟩
      else sc)
    scenarios

/-- The first block of `update_scenarios` ("Start a new scenario if the
object is anomalous and not already in one"). -/
def start_scenario_stage (scenarios : List (ℤ × Scenario)) (track : Track)
    (context : Context) : List (ℤ × Scenario) :=
  if (alistGet? scenarios track.obj_id).isNone ∧
      context.anomaly_score > ANOMALY_THRESHOLD then
    start_scenario scenarios track
  else scenarios

/-- The second block of `update_scenarios` ("Advance the state of existing
scenarios"): evaluate the trigger at the current state index and, when it
fires, increment the state index by exactly one. -/
def advance_stage (scenarios : List (ℤ × Scenario)) (track : Track)
    (context : Context) : List (ℤ × Scenario) :=
  match alistGet? scenarios track.obj_id with
  | none => scenarios
  | some scenario =>
      match alistGet? playbooks scenario.playbook with
      | none => scenarios
      | some playbook =>
          match playbook.triggers.get? scenario.state_index with
          | none => scenarios
          | some trig =>
              match eval_trigger scenarios scenario trig track context with
              | (true, scenarios2) =>
                  alistModify scenarios2 track.obj_id
                    (fun s => { s with state_index := s.state_index + 1 })
              | (false, scenarios2) => scenarios2

def update_scenarios (scenarios : List (ℤ × Scenario)) (track : Track)
    (context : Context) : List (ℤ × Scenario) :=
  advance_stage (start_scenario_stage scenarios track context) track context

structure PlaybookInfo where
  name : String
  state : String
deriving Repr, DecidableEq

def get_matched_playbook_info (scenarios : List (ℤ × Scenario)) (obj_id : ℤ) :
    Option PlaybookInfo :=
  match alistGet? scenarios obj_id with
  | none => none
  | some scenario =>
      match alistGet? playbooks scenario.playbook with
      | none => none
      | some playbook =>
          match playbook.states.get? scenario.state_index with
          | none => none
          | some state_name => some ⟨scenario.playbook, state_name⟩

/-! ## Layer 4: `ThreatSynthesizer` -/

def likelihoods : List (String × List (String × ℚ)) :=
  [("VBIED_DROPOFF",
    [("high_anomaly", 3),
     ("state_STOPPED_IN_ANOMALOUS_ZONE", 10),
     ("state_DRIVER_EXIT", 50),
     ("state_SEPARATION", 100)])]

structure Evidence where
  anomaly_score : ℚ
  playbook_info : Option PlaybookInfo
deriving Repr, DecidableEq

abbrev ProbTable := List (ℤ × List (String × ℚ))

def evidence_multiplier (evidence : Evidence) : ℚ :=
  match evidence.playbook_info with
  | some info =>
      match alistGet? likelihoods info.name with
      | some table => 1 * alistGetD table ("state_" ++ info.state) 1
      | none => 1
  | none =>
      if evidence.anomaly_score > ANOMALY_THRESHOLD then
        1 * alistGetD (alistGetD likelihoods "VBIED_DROPOFF" []) "high_anomaly" 1
      else 1

/-- Source `_normalize`: cap every probability of the object above 0.999 at 0.999. -/
def _normalize (probs : ProbTable) (obj_id : ℤ) : ProbTable :=
  alistModify probs obj_id
    (fun tl => tl.map (fun tp => if tp.2 > 0.999 then (tp.1, (0.999 : ℚ)) else tp))

def update_threat_probabilities (probs : ProbTable) (obj_id : ℤ) (evidence : Evidence) :
    ProbTable :=
  let probs1 :=
    if (alistGet? probs obj_id).isNone then
      alistSet probs obj_id [("VBIED_DROPOFF", (0.0001 : ℚ))]
    else probs
  let multiplier := evidence_multiplier evidence
  let probs2 :=
    alistModify probs1 obj_id
      (fun tl => tl.map (fun tp =>
        if (alistGet? likelihoods tp.1).isSome then (tp.1, tp.2 * multiplier) else tp))
  _normalize probs2 obj_id

structure Alert where
  obj_id : ℤ
  threat_type : String
  probability : ℚ
deriving Repr, DecidableEq

/-- The collection loop of `get_prioritized_alerts`, in dict iteration order. -/
def collect_alerts (probs : ProbTable) : List Alert :=
  probs.flatMap (fun p =>
    (p.2.filter (fun tp => tp.2 > ALERT_PROBABILITY_THRESHOLD)).map
      (fun tp => ⟨p.1, tp.1, tp.2⟩))

/-- Python `sorted(alerts, key=lambda x: x['probability'], reverse=True)`: a stable
sort, descending by probability (ties keep collection order). -/
def get_prioritized_alerts (probs : ProbTable) : List Alert :=
  (collect_alerts probs).mergeSort (fun a b => b.probability ≤ a.probability)

/-! ## Orchestrator: `ThreatDetector` -/

structure Detection where
  obj_id : ℤ
  label : String
  bbox : ℤ × ℤ × ℤ × ℤ
deriving Repr, DecidableEq

structure FrameData where
  timestamp : ℚ
  detections : List Detection
deriving Repr, DecidableEq

/-- Source `_get_center`: `(x + w // 2, y + h // 2)` with Python floor division. -/
def _get_center (bbox : ℤ × ℤ × ℤ × ℤ) : Pos :=
  (((bbox.1 + bbox.2.2.1.fdiv 2 : ℤ) : ℚ), ((bbox.2.1 + bbox.2.2.2.fdiv 2 : ℤ) : ℚ))

def _update_tracks (tracks : List (ℤ × Track)) (detections : List Detection)
    (current_time : ℚ) : List (ℤ × Track) :=
  detections.foldl
    (fun tks det =>
      let center_pos := _get_center det.bbox
      let tks1 :=
        if (alistGet? tks det.obj_id).isNone then
          alistSet tks det.obj_id ⟨det.obj_id, det.label, []⟩
        else tks
      alistModify tks1 det.obj_id
        (fun tr => { tr with history := tr.history ++ [⟨center_pos, current_time⟩] }))
    tracks

/-- Source `_calculate_speed_mps`, squared (see the header note): the source returns
`sqrt(dist_sq_px) * PIXELS_TO_METERS / time_s` when `time_s > 0`, and `0.0`
when the history is shorter than 2 samples or `time_s <= 0`; the guard means
no division by zero is ever attempted. -/
def _calculate_speed_sq_mps (track : Track) : ℚ :=
  match last2 track.history with
  | none => 0
  | some pq =>
      let dist_sq_m := distSq pq.2.pos pq.1.pos * PIXELS_TO_METERS ^ 2
      let time_s := pq.2.time - pq.1.time
      if time_s > 0 then dist_sq_m / time_s ^ 2 else 0

structure DetectorState where
  tracked_objects : List (ℤ × Track)
  active_scenarios : List (ℤ × Scenario)
  threat_probabilities : ProbTable
deriving Repr, DecidableEq

def init_state : DetectorState := ⟨[], [], []⟩

/-- One iteration of the per-object loop of `process_frame_data`:
`is_stopped = context['speeds'][obj_id] < STOP_SPEED_THRESHOLD_MPS` (squared
comparison here), anomaly scoring, scenario update, evidence fusion. -/
def process_object (tracks : List (ℤ × Track)) (speeds_sq : List (ℤ × ℚ))
    (sp : List (ℤ × Scenario) × ProbTable) (entry : ℤ × Track) :
    List (ℤ × Scenario) × ProbTable :=
  let is_stopped := decide (alistGetD speeds_sq entry.1 0 < STOP_SPEED_THRESHOLD_MPS ^ 2)
  let anomaly_score := calculate_anomaly_score entry.2 is_stopped
  let context : Context := ⟨tracks, speeds_sq, anomaly_score, is_stopped⟩
  let scenarios1 := update_scenarios sp.1 entry.2 context
  let playbook_info := get_matched_playbook_info scenarios1 entry.1
  let probs1 := update_threat_probabilities sp.2 entry.1 ⟨anomaly_score, playbook_info⟩
  (scenarios1, probs1)

def process_frame_data (st : DetectorState) (frame : FrameData) :
    DetectorState × List Alert :=
  let tracks := _update_tracks st.tracked_objects frame.detections frame.timestamp
  let speeds_sq := tracks.map (fun p => (p.1, _calculate_speed_sq_mps p.2))
  let sp := tracks.foldl (process_object tracks speeds_sq)
    (st.active_scenarios, st.threat_probabilities)
  (⟨tracks, sp.1, sp.2⟩, get_prioritized_alerts sp.2)

def run_frames (st : DetectorState) (frames : List FrameData) : DetectorState :=
  frames.foldl (fun s f => (process_frame_data s f).1) st

/-! ## The reference walkthrough (`simulation_api_feed`) -/

def simulation_api_feed : List FrameData :=
  [⟨1.0, [⟨101, "van", (100, 240, 60, 50)⟩]⟩,
   ⟨2.0, [⟨101, "van", (250, 245, 60, 50)⟩]⟩,
   ⟨3.0, [⟨101, "van", (400, 350, 60, 50)⟩]⟩,
   ⟨4.0, [⟨101, "van", (400, 350, 60, 50)⟩]⟩,
   ⟨5.0, [⟨101, "van", (400, 350, 60, 50)⟩, ⟨202, "pedestrian", (450, 350, 20, 40)⟩]⟩,
   ⟨6.0, [⟨101, "van", (400, 350, 60, 50)⟩, ⟨202, "pedestrian", (480, 355, 20, 40)⟩]⟩,
   ⟨7.0, [⟨101, "van", (400, 350, 60, 50)⟩, ⟨202, "pedestrian", (510, 360, 20, 40)⟩]⟩]

/-! ## Derived definitions used to state the claims -/

/-- The location sub-score as the spec words it: 0.95 when the current
position is outside the normal-road polygon, else 0. -/
def spec_location_sub_score (pos : Pos) : ℚ :=
  if is_point_in_polygon pos normal_road_polygon then 0 else 0.95

/-- The stop sub-score as the spec words it: 0.95 when the object is stopped
and outside the normal-stopping polygon, else 0. -/
def spec_stop_sub_score (pos : Pos) (is_stopped : Bool) : ℚ :=
  if is_stopped && !(is_point_in_polygon pos normal_stopping_polygon) then 0.95 else 0

/-- The stop decision the per-object loop of `process_frame_data` computes for
a track (`speed < STOP_SPEED_THRESHOLD_MPS`, squared form). -/
def is_stopped_dec (track : Track) : Bool :=
  decide (_calculate_speed_sq_mps track < STOP_SPEED_THRESHOLD_MPS ^ 2)

/-- "Stopped in an anomalous zone" for a track, exactly the entry trigger of
the playbook: currently stopped and anomaly score above the threshold. -/
def stopped_anomalous (track : Track) : Bool :=
  is_stopped_dec track &&
    decide (calculate_anomaly_score track (is_stopped_dec track) > ANOMALY_THRESHOLD)

/-- "Stopped in an anomalous zone" read off a track table for a given id. -/
def track_stopped_anomalous (tracks : List (ℤ × Track)) (oid : ℤ) : Bool :=
  match alistGet? tracks oid with
  | none => false
  | some tr => stopped_anomalous tr

/-- "Approached by a newly-appeared pedestrian": some currently tracked
first-frame pedestrian is within 50 pixels of the object (the driver-exit
condition). -/
def approached_by_new_pedestrian (tracks : List (ℤ × Track)) (oid : ℤ) : Bool :=
  match alistGet? tracks oid with
  | none => false
  | some tr =>
      match tr.history.getLast? with
      | none => false
      | some v => (check_driver_exit_find v.pos tracks).isSome

/-- The track table a frame is processed against (tracks updated with the
frame's detections, before the per-object loop). -/
def frame_tracks (st : DetectorState) (f : FrameData) : List (ℤ × Track) :=
  _update_tracks st.tracked_objects f.detections f.timestamp

/-- The detector state after the first `n` frames of `frames`. -/
def state_at (frames : List FrameData) (n : ℕ) : DetectorState :=
  run_frames init_state (frames.take n)

/-- The stored belief for `(object_id, threat_kind)`, if any. -/
def lookup_belief (probs : ProbTable) (obj_id : ℤ) (threat : String) : Option ℚ :=
  (alistGet? probs obj_id).bind (fun tl => alistGet? tl threat)

/-- The belief table after an arbitrary sequence of
`update_threat_probabilities` calls starting from the empty table. -/
def apply_updates (updates : List (ℤ × Evidence)) : ProbTable :=
  updates.foldl (fun pr oe => update_threat_probabilities pr oe.1 oe.2) []

/-- The scenario table after an arbitrary sequence of `update_scenarios`
calls starting from the empty table. -/
def apply_scenario_updates (steps : List (Track × Context)) : List (ℤ × Scenario) :=
  steps.foldl (fun sc tc => update_scenarios sc tc.1 tc.2) []

/-! ## Malformed input (error-handling model)

A detection dict may lack a required key; reading a missing key raises
`KeyError` in the source.  `RawDetection` makes each field optional and the
raw track-update steps return `none` at the first missing read. -/

structure RawDetection where
  obj_id : Option ℤ
  label : Option String
  bbox : Option (ℤ × ℤ × ℤ × ℤ)
deriving Repr, DecidableEq

/-- One iteration of the `_update_tracks` loop on a possibly-malformed
detection: `det['obj_id']` and `det['bbox']` are read unconditionally,
`det['label']` only when the object is new; a missing key raises (`none`). -/
def _update_tracks_step_raw (tks : List (ℤ × Track)) (det : RawDetection) (t : ℚ) :
    Option (List (ℤ × Track)) :=
  match det.obj_id with
  | none => none
  | some oid =>
      match det.bbox with
      | none => none
      | some bb =>
          let center_pos := _get_center bb
          match alistGet? tks oid with
          | some _ =>
              some (alistModify tks oid
                (fun tr => { tr with history := tr.history ++ [⟨center_pos, t⟩] }))
          | none =>
              match det.label with
              | none => none
              | some lab =>
                  some (alistModify (alistSet tks oid ⟨oid, lab, []⟩) oid
                    (fun tr => { tr with history := tr.history ++ [⟨center_pos, t⟩] }))

/-- Raw `_update_tracks`: processes detections left to right; at the first
malformed detection the exception propagates, leaving the table as mutated so
far (`false` flag).  Mirrors the unguarded `for det in detections` loop. -/
def _update_tracks_raw (tks : List (ℤ × Track)) (dets : List RawDetection) (t : ℚ) :
    List (ℤ × Track) × Bool :=
  match dets with
  | [] => (tks, true)
  | det :: rest =>
      match _update_tracks_step_raw tks det t with
      | none => (tks, false)
      | some tks1 => _update_tracks_raw tks1 rest t

structure RawFrameData where
  timestamp : ℚ
  detections : List RawDetection
deriving Repr, DecidableEq

/-- Source `process_frame_data` on possibly-malformed input: a `KeyError`
escaping `_update_tracks` aborts the frame — the per-object layer processing
and the alert computation do not run, and the partially updated track table
remains (`.error`).  The source has no handler anywhere, so the error
propagates to the caller. -/
def process_frame_data_raw (st : DetectorState) (frame : RawFrameData) :
    Except DetectorState (DetectorState × List Alert) :=
  match _update_tracks_raw st.tracked_objects frame.detections frame.timestamp with
  | (tracks, false) => .error { st with tracked_objects := tracks }
  | (tracks, true) =>
      let speeds_sq := tracks.map (fun p => (p.1, _calculate_speed_sq_mps p.2))
      let sp := tracks.foldl (process_object tracks speeds_sq)
        (st.active_scenarios, st.threat_probabilities)
      .ok (⟨tracks, sp.1, sp.2⟩, get_prioritized_alerts sp.2)

/-- A fully-formed detection, viewed as a raw one. -/
def toRaw (d : Detection) : RawDetection := ⟨some d.obj_id, some d.label, some d.bbox⟩

/-! ## Invariants -/

/-- Every stored belief is strictly positive and at most 0.999. -/
def ProbsInv (probs : ProbTable) : Prop :=
  ∀ e ∈ probs, ∀ tp ∈ e.2, 0 < tp.2 ∧ tp.2 ≤ (0.999 : ℚ)

/-- A stored scenario always references the one configured playbook, has
state index at most `len(triggers) = 3`, and carries a linked object only
from the driver-exit state (index 2) on. -/
def ScenEntryInv (s : Scenario) : Prop :=
  s.playbook = "VBIED_DROPOFF" ∧ s.state_index ≤ 3 ∧
    (∀ x, s.linked_obj_id = some x → 2 ≤ s.state_index)

/-- Scenario-table invariant: unique keys and every entry well formed. -/
def ScenTableInv (sc : List (ℤ × Scenario)) : Prop :=
  (sc.map Prod.fst).Nodup ∧ ∀ e ∈ sc, ScenEntryInv e.2

/-- Track-table invariant relative to a distinguished object: unique keys,
each record's `obj_id` field equals its key, and the distinguished object
carries a vehicle label. -/
def TrackTableInv (objId : ℤ) (tracks : List (ℤ × Track)) : Prop :=
  (tracks.map Prod.fst).Nodup
  ∧ ∀ e ∈ tracks, e.2.obj_id = e.1 ∧ (e.1 = objId → e.2.label ∈ vehicle_labels)

/-- "Quiet" scenario state for one object: if it has a scenario at all, the
scenario still sits at state index 0 of the configured playbook. -/
def ScenQuiet (objId : ℤ) (sc : List (ℤ × Scenario)) : Prop :=
  ∀ s, alistGet? sc objId = some s → s.playbook = "VBIED_DROPOFF" ∧ s.state_index = 0

/-- "Quiet" belief state for one object: unique keys, and the object's
belief row (if any) is exactly the initial prior. -/
def ProbsQuiet (objId : ℤ) (pr : ProbTable) : Prop :=
  (pr.map Prod.fst).Nodup
  ∧ ∀ tl, alistGet? pr objId = some tl → tl = [("VBIED_DROPOFF", (0.0001 : ℚ))]

/-- The full quiet invariant for claim C2. -/
def QuietInv (objId : ℤ) (st : DetectorState) : Prop :=
  TrackTableInv objId st.tracked_objects
  ∧ ScenQuiet objId st.active_scenarios
  ∧ ProbsQuiet objId st.threat_probabilities

/-! ## Association-list toolkit -/

theorem alistGet?_cons {κ α : Type} [DecidableEq κ] (k' : κ) (v : α) (rest : List (κ × α))
    (k : κ) : alistGet? ((k', v) :: rest) k = if k' = k then some v else alistGet? rest k :=
  rfl

theorem alistGet?_mem {κ α : Type} [DecidableEq κ] {l : List (κ × α)} {k : κ} {v : α}
    (h : alistGet? l k = some v) : (k, v) ∈ l := by
  induction l with
  | nil => simp [alistGet?] at h
  | cons e rest ih =>
      obtain ⟨k', v'⟩ := e
      rw [alistGet?_cons] at h
      by_cases hk : k' = k
      · rw [if_pos hk] at h
        injection h with h
        subst hk h
        exact List.mem_cons_self _ _
      · rw [if_neg hk] at h
        exact List.mem_cons_of_mem _ (ih h)

theorem alistGet?_eq_none_iff {κ α : Type} [DecidableEq κ] {l : List (κ × α)} {k : κ} :
    alistGet? l k = none ↔ k ∉ l.map Prod.fst := by
  induction l with
  | nil => simp [alistGet?]
  | cons e rest ih =>
      obtain ⟨k', v'⟩ := e
      rw [alistGet?_cons]
      by_cases hk : k' = k
      · subst hk
        simp
      · simp only [if_neg hk, List.map_cons, List.mem_cons, ih]
        constructor
        · intro h hor
          rcases hor with h1 | h2
          · exact hk h1.symm
          · exact h h2
        · intro h h2
          exact h (Or.inr h2)

theorem alistGet?_of_mem_nodup {κ α : Type} [DecidableEq κ] {l : List (κ × α)}
    (hn : (l.map Prod.fst).Nodup) {k : κ} {v : α} (h : (k, v) ∈ l) :
    alistGet? l k = some v := by
  induction l with
  | nil => simp at h
  | cons e rest ih =>
      obtain ⟨k', v'⟩ := e
      rcases List.mem_cons.mp h with h1 | h2
      · injection h1 with h1a h1b
        subst h1a h1b
        simp [alistGet?_cons]
      · have hk : k' ≠ k := by
          intro hkk
          subst hkk
          have : k' ∈ rest.map Prod.fst := List.mem_map.mpr ⟨(k', v), h2, rfl⟩
          exact (List.nodup_cons.mp hn).1 this
        rw [alistGet?_cons, if_neg hk]
        exact ih (List.nodup_cons.mp hn).2 h2

theorem alistGet?_alistSet_self {κ α : Type} [DecidableEq κ] (l : List (κ × α)) (k : κ)
    (v : α) : alistGet? (alistSet l k v) k = some v := by
  induction l with
  | nil => simp [alistSet, alistGet?_cons]
  | cons e rest ih =>
      obtain ⟨k', v'⟩ := e
      by_cases hk : k' = k
      · simp [alistSet, hk, alistGet?_cons]
      · simp [alistSet, hk, alistGet?_cons, ih]

theorem alistGet?_alistSet_ne {κ α : Type} [DecidableEq κ] (l : List (κ × α)) (k k' : κ)
    (v : α) (h : k' ≠ k) : alistGet? (alistSet l k v) k' = alistGet? l k' := by
  induction l with
  | nil =>
      have hkk : ¬(k = k') := fun hh => h (Eq.symm hh)
      simp [alistSet, alistGet?_cons, alistGet?, hkk]
  | cons e rest ih =>
      obtain ⟨k'', v''⟩ := e
      by_cases hk : k'' = k
      · subst hk
        have hkk : ¬(k'' = k') := fun hh => h (Eq.symm hh)
        simp [alistSet, alistGet?_cons, hkk]
      · simp [alistSet, hk, alistGet?_cons, ih]

theorem alistGet?_alistModify_self {κ α : Type} [DecidableEq κ] (l : List (κ × α)) (k : κ)
    (f : α → α) : alistGet? (alistModify l k f) k = (alistGet? l k).map f := by
  induction l with
  | nil => simp [alistModify, alistGet?]
  | cons e rest ih =>
      obtain ⟨k', v'⟩ := e
      by_cases hk : k' = k
      · simp [alistModify, hk, alistGet?_cons]
      · simp [alistModify, hk, alistGet?_cons] at ih ⊢
        exact ih

theorem alistGet?_alistModify_ne {κ α : Type} [DecidableEq κ] (l : List (κ × α)) (k k' : κ)
    (f : α → α) (h : k' ≠ k) : alistGet? (alistModify l k f) k' = alistGet? l k' := by
  induction l with
  | nil => simp [alistModify, alistGet?]
  | cons e rest ih =>
      obtain ⟨k'', v''⟩ := e
      by_cases hk : k'' = k
      · subst hk
        have hkk : ¬(k'' = k') := fun hh => h (Eq.symm hh)
        simp [alistModify, alistGet?_cons, hkk] at ih ⊢
        exact ih
      · simp [alistModify, hk, alistGet?_cons] at ih ⊢
        by_cases hk2 : k'' = k'
        · simp [hk2]
        · simp [hk2, ih]

theorem alistSet_eq_append {κ α : Type} [DecidableEq κ] {l : List (κ × α)} {k : κ} (v : α)
    (h : alistGet? l k = none) : alistSet l k v = l ++ [(k, v)] := by
  induction l with
  | nil => simp [alistSet]
  | cons e rest ih =>
      obtain ⟨k', v'⟩ := e
      rw [alistGet?_cons] at h
      by_cases hk : k' = k
      · rw [if_pos hk] at h
        exact absurd h (by simp)
      · rw [if_neg hk] at h
        simp [alistSet, hk, ih h]

theorem mem_alistSet {κ α : Type} [DecidableEq κ] {l : List (κ × α)} {k : κ} {v : α}
    {e : κ × α} (h : e ∈ alistSet l k v) : e ∈ l ∨ e = (k, v) := by
  induction l with
  | nil => simp [alistSet] at h; exact Or.inr h
  | cons e' rest ih =>
      obtain ⟨k', v'⟩ := e'
      by_cases hk : k' = k
      · simp only [alistSet, if_pos hk] at h
        rcases List.mem_cons.mp h with h1 | h2
        · exact Or.inr h1
        · exact Or.inl (List.mem_cons_of_mem _ h2)
      · simp only [alistSet, if_neg hk] at h
        rcases List.mem_cons.mp h with h1 | h2
        · exact Or.inl (h1 ▸ List.mem_cons_self _ _)
        · rcases ih h2 with h3 | h4
          · exact Or.inl (List.mem_cons_of_mem _ h3)
          · exact Or.inr h4

theorem mem_alistModify {κ α : Type} [DecidableEq κ] {l : List (κ × α)} {k : κ} {f : α → α}
    {e : κ × α} (h : e ∈ alistModify l k f) :
    ∃ e₀ ∈ l, e = if e₀.1 = k then (e₀.1, f e₀.2) else e₀ := by
  rcases List.mem_map.mp h with ⟨e₀, he₀, heq⟩
  exact ⟨e₀, he₀, heq.symm⟩

theorem alistModify_map_fst {κ α : Type} [DecidableEq κ] (l : List (κ × α)) (k : κ)
    (f : α → α) : (alistModify l k f).map Prod.fst = l.map Prod.fst := by
  induction l with
  | nil => rfl
  | cons e rest ih =>
      obtain ⟨k', v'⟩ := e
      by_cases hk : k' = k
      · simp [alistModify, hk] at ih ⊢
        exact ih
      · simp [alistModify, hk] at ih ⊢
        exact ih

theorem alistSet_map_fst_nodup {κ α : Type} [DecidableEq κ] {l : List (κ × α)} {k : κ}
    (v : α) (h : alistGet? l k = none) (hn : (l.map Prod.fst).Nodup) :
    ((alistSet l k v).map Prod.fst).Nodup := by
  rw [alistSet_eq_append v h, List.map_append]
  refine List.Nodup.append hn (by simp) ?_
  intro x hx hx'
  simp at hx'
  subst hx'
  exact (alistGet?_eq_none_iff.mp h) hx

theorem alistGet?_map_snd {κ α β : Type} [DecidableEq κ] (f : α → β) (l : List (κ × α))
    (k : κ) : alistGet? (l.map (fun p => (p.1, f p.2))) k = (alistGet? l k).map f := by
  induction l with
  | nil => simp [alistGet?]
  | cons e rest ih =>
      obtain ⟨k', v'⟩ := e
      by_cases hk : k' = k
      · simp [alistGet?_cons, hk]
      · simp [alistGet?_cons, hk, ih]

theorem alistGet?_map_kv {κ α β : Type} [DecidableEq κ] (f : κ → α → β)
    (l : List (κ × α)) (k : κ) :
    alistGet? (l.map (fun p => (p.1, f p.1 p.2))) k = (alistGet? l k).map (f k) := by
  induction l with
  | nil => simp [alistGet?]
  | cons e rest ih =>
      obtain ⟨k', v'⟩ := e
      by_cases hk : k' = k
      · subst hk
        simp [alistGet?_cons]
      · simp [alistGet?_cons, hk, ih]

/-! ## Claim C6: anomaly score is the max of the two sub-scores, in [0, 1] -/

/-- Claim C6: for every track with a current position and every stop flag,
`calculate_anomaly_score` returns exactly the maximum of the location
sub-score and the stop sub-score, a value in [0, 1]; when both sub-scores are
0.95 the result is 0.95 (max, not sum). -/
theorem C6_anomaly_score_is_max (track : Track) (is_stopped : Bool) (s : Sample)
    (h : track.history.getLast? = some s) :
    calculate_anomaly_score track is_stopped
        = max (spec_location_sub_score s.pos) (spec_stop_sub_score s.pos is_stopped)
    ∧ 0 ≤ calculate_anomaly_score track is_stopped
    ∧ calculate_anomaly_score track is_stopped ≤ 1
    ∧ (spec_location_sub_score s.pos = 0.95 →
        spec_stop_sub_score s.pos is_stopped = 0.95 →
        calculate_anomaly_score track is_stopped = 0.95) := by
  have hmain : calculate_anomaly_score track is_stopped
      = max (spec_location_sub_score s.pos) (spec_stop_sub_score s.pos is_stopped) := by
    unfold calculate_anomaly_score spec_location_sub_score spec_stop_sub_score
    rw [h]
    rcases hroad : is_point_in_polygon s.pos normal_road_polygon <;> simp [hroad]
  refine ⟨hmain, ?_, ?_, ?_⟩
  · rw [hmain]
    unfold spec_location_sub_score spec_stop_sub_score
    rcases hroad : is_point_in_polygon s.pos normal_road_polygon <;>
      rcases hstop : is_stopped && !(is_point_in_polygon s.pos normal_stopping_polygon) <;>
        simp [hroad, hstop] <;> norm_num
  · rw [hmain]
    unfold spec_location_sub_score spec_stop_sub_score
    rcases hroad : is_point_in_polygon s.pos normal_road_polygon <;>
      rcases hstop : is_stopped && !(is_point_in_polygon s.pos normal_stopping_polygon) <;>
        simp [hroad, hstop] <;> norm_num
  · intro h1 h2
    rw [hmain, h1, h2]
    norm_num

/-- Witness for C6 at a concrete input: the walkthrough van stopped at
(430, 375), outside both polygons, where both sub-scores are 0.95 and the
score is 0.95. -/
theorem C6_witness :
    calculate_anomaly_score ⟨101, "van", [⟨(430, 375), 3⟩]⟩ true
        = max (spec_location_sub_score (430, 375)) (spec_stop_sub_score (430, 375) true)
    ∧ 0 ≤ calculate_anomaly_score ⟨101, "van", [⟨(430, 375), 3⟩]⟩ true
    ∧ calculate_anomaly_score ⟨101, "van", [⟨(430, 375), 3⟩]⟩ true ≤ 1
    ∧ (spec_location_sub_score ((430 : ℚ), (375 : ℚ)) = 0.95 →
        spec_stop_sub_score ((430 : ℚ), (375 : ℚ)) true = 0.95 →
        calculate_anomaly_score ⟨101, "van", [⟨(430, 375), 3⟩]⟩ true = 0.95) :=
  C6_anomaly_score_is_max ⟨101, "van", [⟨(430, 375), 3⟩]⟩ true ⟨(430, 375), 3⟩ rfl

/-! ## Claim C8: the speed computation is guarded -/

theorem last2_eq_none_of_short {α : Type} (l : List α) (h : l.length < 2) :
    last2 l = none := by
  match l with
  | [] => rfl
  | [_] => rfl
  | _ :: _ :: _ =>
      simp at h
      omega

/-- Claim C8: a track with fewer than two samples has speed 0, and a track
whose last two samples have zero or negative elapsed time has speed 0; the
guard means the division is never attempted, so no division error can be
raised (the embedding is a total function whose division is reached only
under `time_s > 0`). -/
theorem C8_speed_guard (track : Track) :
    (track.history.length < 2 → _calculate_speed_sq_mps track = 0)
    ∧ (∀ p1 p2 : Sample, last2 track.history = some (p1, p2) → p2.time - p1.time ≤ 0 →
        _calculate_speed_sq_mps track = 0) := by
  constructor
  · intro h
    unfold _calculate_speed_sq_mps
    rw [last2_eq_none_of_short _ h]
  · intro p1 p2 h ht
    unfold _calculate_speed_sq_mps
    rw [h]
    simp only
    rw [if_neg (by linarith)]

/-- Witness for C8 at a concrete input: two samples at the same timestamp
(degenerate timing) give speed 0. -/
theorem C8_witness :
    _calculate_speed_sq_mps ⟨7, "van", [⟨(0, 0), 5⟩, ⟨(3, 4), 5⟩]⟩ = 0 :=
  (C8_speed_guard ⟨7, "van", [⟨(0, 0), 5⟩, ⟨(3, 4), 5⟩]⟩).2 ⟨(0, 0), 5⟩ ⟨(3, 4), 5⟩ rfl
    (by norm_num)

/-! ## Claim C10: first-frame objects are classified as stopped -/

/-- Claim C10: an object on the first frame it is ever observed (history of
length 1) has computed speed 0, hence is classified as stopped by the
per-object loop; consequently, if its first observed position lies outside
the normal-stopping polygon, its anomaly score that frame is at least 0.95 —
even when the position is inside the normal-road region. -/
theorem C10_first_frame_stopped (track : Track) (s : Sample)
    (h : track.history = [s]) :
    _calculate_speed_sq_mps track = 0
    ∧ is_stopped_dec track = true
    ∧ (is_point_in_polygon s.pos normal_stopping_polygon = false →
        0.95 ≤ calculate_anomaly_score track (is_stopped_dec track))
    ∧ (is_point_in_polygon s.pos normal_stopping_polygon = false →
        is_point_in_polygon s.pos normal_road_polygon = true →
        calculate_anomaly_score track (is_stopped_dec track) = 0.95) := by
  have hspeed : _calculate_speed_sq_mps track = 0 := by
    unfold _calculate_speed_sq_mps
    rw [h]
    rfl
  have hstopped : is_stopped_dec track = true := by
    unfold is_stopped_dec
    rw [hspeed]
    norm_num [STOP_SPEED_THRESHOLD_MPS]
  have hlast : track.history.getLast? = some s := by rw [h]; rfl
  refine ⟨hspeed, hstopped, ?_, ?_⟩
  · intro hout
    unfold calculate_anomaly_score
    rw [hlast, hstopped]
    simp only [hout]
    rcases hroad : is_point_in_polygon s.pos normal_road_polygon <;>
      simp [hroad] <;> norm_num
  · intro hout hin
    unfold calculate_anomaly_score
    rw [hlast, hstopped]
    simp [hout, hin]
    all_goals norm_num

/-- Witness for C10 at a concrete input: a first-frame car at (400, 260) —
inside the normal road, outside the normal stopping zone — is classified as
stopped and scores 0.95. -/
theorem C10_witness :
    _calculate_speed_sq_mps ⟨303, "car", [⟨(400, 260), 1⟩]⟩ = 0
    ∧ is_stopped_dec ⟨303, "car", [⟨(400, 260), 1⟩]⟩ = true
    ∧ (is_point_in_polygon ((400 : ℚ), (260 : ℚ)) normal_stopping_polygon = false →
        0.95 ≤ calculate_anomaly_score ⟨303, "car", [⟨(400, 260), 1⟩]⟩
          (is_stopped_dec ⟨303, "car", [⟨(400, 260), 1⟩]⟩))
    ∧ (is_point_in_polygon ((400 : ℚ), (260 : ℚ)) normal_stopping_polygon = false →
        is_point_in_polygon ((400 : ℚ), (260 : ℚ)) normal_road_polygon = true →
        calculate_anomaly_score ⟨303, "car", [⟨(400, 260), 1⟩]⟩
          (is_stopped_dec ⟨303, "car", [⟨(400, 260), 1⟩]⟩) = 0.95) :=
  C10_first_frame_stopped ⟨303, "car", [⟨(400, 260), 1⟩]⟩ ⟨(400, 260), 1⟩ rfl

/-! ## Claim C5: the alert contract -/

/-- An alert record is collected exactly when its `(object_id, threat_kind)`
entry is stored with a probability above the threshold. -/
theorem mem_collect_alerts {probs : ProbTable} {a : Alert} :
    a ∈ collect_alerts probs ↔
      ∃ tl, (a.obj_id, tl) ∈ probs ∧ (a.threat_type, a.probability) ∈ tl ∧
        a.probability > ALERT_PROBABILITY_THRESHOLD := by
  unfold collect_alerts
  rw [List.mem_flatMap]
  constructor
  · rintro ⟨p, hp, ha⟩
    rcases List.mem_map.mp ha with ⟨tp, htp, heq⟩
    rcases List.mem_filter.mp htp with ⟨htp2, hgt⟩
    subst heq
    refine ⟨p.2, ?_, htp2, by simpa using hgt⟩
    simpa using hp
  · rintro ⟨tl, hmem, htp, hgt⟩
    refine ⟨(a.obj_id, tl), hmem, ?_⟩
    rw [List.mem_map]
    refine ⟨(a.threat_type, a.probability), ?_, ?_⟩
    · exact List.mem_filter.mpr ⟨htp, by simpa using hgt⟩
    · cases a
      rfl

/-- Claim C5: `get_prioritized_alerts` returns exactly the pairs whose stored
probability strictly exceeds the alert threshold, sorted descending by
probability with a deterministic stable tie-break (records collected in
dict-iteration order with non-increasing probabilities keep their relative
order, so equal probabilities keep insertion order), and a second call with
no intervening update returns the identical list. -/
theorem C5_alert_contract (probs : ProbTable) :
    (∀ a : Alert, a ∈ get_prioritized_alerts probs ↔
        ∃ tl, (a.obj_id, tl) ∈ probs ∧ (a.threat_type, a.probability) ∈ tl ∧
          a.probability > ALERT_PROBABILITY_THRESHOLD)
    ∧ (get_prioritized_alerts probs).Sorted
        (fun a b : Alert => b.probability ≤ a.probability)
    ∧ (∀ a b : Alert, b.probability ≤ a.probability →
        List.Sublist [a, b] (collect_alerts probs) →
        List.Sublist [a, b] (get_prioritized_alerts probs))
    ∧ get_prioritized_alerts probs = get_prioritized_alerts probs := by
  have htrans : ∀ a b c : Alert,
      (fun x y : Alert => decide (y.probability ≤ x.probability)) a b = true →
      (fun x y : Alert => decide (y.probability ≤ x.probability)) b c = true →
      (fun x y : Alert => decide (y.probability ≤ x.probability)) a c = true := by
    intro a b c h1 h2
    simp only [decide_eq_true_eq] at h1 h2 ⊢
    exact le_trans h2 h1
  have htotal : ∀ a b : Alert,
      ((fun x y : Alert => decide (y.probability ≤ x.probability)) a b ||
        (fun x y : Alert => decide (y.probability ≤ x.probability)) b a) = true := by
    intro a b
    simp only [Bool.or_eq_true, decide_eq_true_eq]
    exact le_total b.probability a.probability
  refine ⟨?_, ?_, ?_, rfl⟩
  · intro a
    unfold get_prioritized_alerts
    rw [List.mem_mergeSort]
    exact mem_collect_alerts
  · unfold get_prioritized_alerts
    have hp := List.sorted_mergeSort htrans htotal (collect_alerts probs)
    exact List.Pairwise.imp (fun h => of_decide_eq_true h) hp
  · intro a b hab hsub
    unfold get_prioritized_alerts
    exact List.pair_sublist_mergeSort htrans htotal (decide_eq_true hab) hsub

/-- Witness for C5 at a concrete input: two entries tied at probability 0.9
keep their insertion order in the alert list. -/
theorem C5_witness :
    List.Sublist [Alert.mk 1 "VBIED_DROPOFF" 0.9, Alert.mk 2 "VBIED_DROPOFF" 0.9]
      (get_prioritized_alerts
        [(1, [("VBIED_DROPOFF", (0.9 : ℚ))]), (2, [("VBIED_DROPOFF", (0.9 : ℚ))])]) :=
  (C5_alert_contract
      [(1, [("VBIED_DROPOFF", (0.9 : ℚ))]), (2, [("VBIED_DROPOFF", (0.9 : ℚ))])]).2.2.1
    (Alert.mk 1 "VBIED_DROPOFF" 0.9) (Alert.mk 2 "VBIED_DROPOFF" 0.9) (le_refl _)
    (by with_unfolding_all decide)

/-! ## Claim C1: the reference walkthrough raises an alert by t = 7 -/

/-- Claim C1: after processing the seven walkthrough frames (vehicle 101
stopping outside both polygons, first-seen pedestrian 202 appearing within 50
units at t = 5 and then moving away), vehicle 101's stored belief for
VBIED_DROPOFF exceeds the 0.75 alert threshold and the pair appears in the
list returned by `get_prioritized_alerts` (its capped probability is 0.999). -/
theorem C1_walkthrough_alert :
    ALERT_PROBABILITY_THRESHOLD <
      alistGetD
        (alistGetD (run_frames init_state simulation_api_feed).threat_probabilities 101 [])
        "VBIED_DROPOFF" 0
    ∧ Alert.mk 101 "VBIED_DROPOFF" 0.999 ∈
        get_prioritized_alerts
          (run_frames init_state simulation_api_feed).threat_probabilities := by
  with_unfolding_all decide

/-! ## Claim C3: beliefs never decrease (the ratchet) -/

theorem update_threat_probabilities_eq (probs : ProbTable) (obj_id : ℤ) (evidence : Evidence) :
    update_threat_probabilities probs obj_id evidence =
      _normalize
        (alistModify
          (if (alistGet? probs obj_id).isNone then
            alistSet probs obj_id [("VBIED_DROPOFF", (0.0001 : ℚ))]
          else probs)
          obj_id
          (fun tl => tl.map (fun tp =>
            if (alistGet? likelihoods tp.1).isSome then
              (tp.1, tp.2 * evidence_multiplier evidence)
            else tp)))
        obj_id :=
  rfl

/-- Every multiplier the evidence-fusion step can produce is at least 1: the
likelihood tables hold only values 3, 10, 50, 100 and the default is 1. -/
theorem likelihood_multiplier_ge_one (e : Evidence) : 1 ≤ evidence_multiplier e := by
  unfold evidence_multiplier
  rcases hpi : e.playbook_info with _ | info
  · simp only [hpi]
    split
    · norm_num [alistGetD, likelihoods, alistGet?]
    · norm_num
  · simp only [hpi]
    rcases hname : alistGet? likelihoods info.name with _ | table
    · simp [hname]
    · simp only [hname]
      have hmem := alistGet?_mem hname
      simp only [likelihoods, List.mem_singleton, Prod.mk.injEq] at hmem
      rcases hmem with ⟨-, ht⟩
      subst ht
      rw [one_mul]
      unfold alistGetD
      rcases hk : alistGet?
          [("high_anomaly", (3 : ℚ)), ("state_STOPPED_IN_ANOMALOUS_ZONE", 10),
            ("state_DRIVER_EXIT", 50), ("state_SEPARATION", 100)]
          ("state_" ++ info.state) with _ | v
      · simp [hk]
      · simp only [hk, Option.getD_some]
        have hv := alistGet?_mem hk
        simp only [List.mem_cons, List.mem_singleton, Prod.mk.injEq,
          List.not_mem_nil, or_false] at hv
        rcases hv with ⟨-, hv⟩ | ⟨-, hv⟩ | ⟨-, hv⟩ | ⟨-, hv⟩ <;> subst hv <;> norm_num

theorem mult_map_pos {tl : List (String × ℚ)} {m : ℚ} (hm : 1 ≤ m)
    (h : ∀ tp ∈ tl, 0 < tp.2) :
    ∀ tp ∈ tl.map (fun tp =>
      if (alistGet? likelihoods tp.1).isSome then (tp.1, tp.2 * m) else tp), 0 < tp.2 := by
  intro tp htp
  rcases List.mem_map.mp htp with ⟨tp0, htp0, heq⟩
  subst heq
  split
  · exact mul_pos (h tp0 htp0) (lt_of_lt_of_le one_pos hm)
  · exact h tp0 htp0

theorem cap_map_bounds {tl : List (String × ℚ)} (h : ∀ tp ∈ tl, 0 < tp.2) :
    ∀ tp ∈ tl.map (fun tp => if tp.2 > (0.999 : ℚ) then (tp.1, (0.999 : ℚ)) else tp),
      0 < tp.2 ∧ tp.2 ≤ 0.999 := by
  intro tp htp
  rcases List.mem_map.mp htp with ⟨tp0, htp0, heq⟩
  subst heq
  split
  · constructor <;> norm_num
  · rename_i hc
    exact ⟨h tp0 htp0, le_of_not_lt hc⟩

/-- The belief-table invariant is preserved by every update call. -/
theorem probs_inv_update (probs : ProbTable) (hinv : ProbsInv probs) (o : ℤ)
    (e : Evidence) : ProbsInv (update_threat_probabilities probs o e) := by
  have hm := likelihood_multiplier_ge_one e
  rw [update_threat_probabilities_eq]
  unfold _normalize
  intro x hx
  rcases mem_alistModify hx with ⟨x2, hx2, hxeq⟩
  rcases mem_alistModify hx2 with ⟨x1, hx1, hx2eq⟩
  have hx1inv : ∀ tp ∈ x1.2, 0 < tp.2 ∧ tp.2 ≤ 0.999 := by
    rcases hget : (alistGet? probs o).isNone with hgf | hgt
    · rw [if_neg (by rw [hget]; exact Bool.false_ne_true)] at hx1
      exact hinv x1 hx1
    · rw [if_pos hget] at hx1
      rcases mem_alistSet hx1 with hmem | hnew
      · exact hinv x1 hmem
      · subst hnew
        intro tp htp
        simp only [List.mem_singleton] at htp
        subst htp
        norm_num
  by_cases hk2 : x2.1 = o
  · rw [if_pos hk2] at hxeq
    subst hxeq
    by_cases hk1 : x1.1 = o
    · rw [if_pos hk1] at hx2eq
      subst hx2eq
      exact cap_map_bounds (mult_map_pos hm (fun tp htp => (hx1inv tp htp).1))
    · rw [if_neg hk1] at hx2eq
      subst hx2eq
      exact cap_map_bounds (fun tp htp => (hx1inv tp htp).1)
  · rw [if_neg hk2] at hxeq
    subst hxeq
    by_cases hk1 : x1.1 = o
    · rw [if_pos hk1] at hx2eq
      exact absurd (hx2eq ▸ hk1) hk2
    · rw [if_neg hk1] at hx2eq
      subst hx2eq
      exact hx1inv

theorem probs_inv_apply_updates (updates : List (ℤ × Evidence)) :
    ProbsInv (apply_updates updates) := by
  have hgen : ∀ (l : List (ℤ × Evidence)) (pr : ProbTable), ProbsInv pr →
      ProbsInv (l.foldl (fun pr oe => update_threat_probabilities pr oe.1 oe.2) pr) := by
    intro l
    induction l with
    | nil => intro pr h; exact h
    | cons oe rest ih =>
        intro pr h
        exact ih _ (probs_inv_update pr h oe.1 oe.2)
  exact hgen updates [] (by intro x hx; simp at hx)

theorem alistGet?_mult_map (tl : List (String × ℚ)) (m : ℚ) (k : String) :
    alistGet? (tl.map (fun tp =>
        if (alistGet? likelihoods tp.1).isSome then (tp.1, tp.2 * m) else tp)) k
      = (alistGet? tl k).map
          (fun v => if (alistGet? likelihoods k).isSome then v * m else v) := by
  induction tl with
  | nil => simp [alistGet?]
  | cons tp rest ih =>
      obtain ⟨k', v'⟩ := tp
      by_cases hk : k' = k
      · subst hk
        by_cases hs : (alistGet? likelihoods k').isSome
        · simp [hs, alistGet?_cons]
        · simp [hs, alistGet?_cons]
      · by_cases hs : (alistGet? likelihoods k').isSome
        · simp [hs, alistGet?_cons, hk, ih]
        · simp [hs, alistGet?_cons, hk, ih]

theorem alistGet?_cap_map (tl : List (String × ℚ)) (k : String) :
    alistGet? (tl.map (fun tp =>
        if tp.2 > (0.999 : ℚ) then (tp.1, (0.999 : ℚ)) else tp)) k
      = (alistGet? tl k).map (fun v => if v > (0.999 : ℚ) then (0.999 : ℚ) else v) := by
  induction tl with
  | nil => simp [alistGet?]
  | cons tp rest ih =>
      obtain ⟨k', v'⟩ := tp
      by_cases hk : k' = k
      · subst hk
        by_cases hc : v' > (0.999 : ℚ)
        · simp [hc, alistGet?_cons]
        · simp [hc, alistGet?_cons]
      · by_cases hc : v' > (0.999 : ℚ)
        · simp [hc, alistGet?_cons, hk, ih]
        · simp [hc, alistGet?_cons, hk, ih]

/-- One update call never decreases any stored belief, and the result stays
capped at 0.999. -/
theorem update_belief_step_mono (probs : ProbTable) (hinv : ProbsInv probs) (o : ℤ)
    (e : Evidence) (oid : ℤ) (threat : String) (p : ℚ)
    (h : lookup_belief probs oid threat = some p) :
    ∃ p', lookup_belief (update_threat_probabilities probs o e) oid threat = some p'
      ∧ p ≤ p' ∧ p' ≤ 0.999 := by
  unfold lookup_belief at h
  rcases houter : alistGet? probs oid with _ | tl
  · rw [houter] at h; simp at h
  rw [houter] at h
  simp only [Option.some_bind] at h
  have hbounds : 0 < p ∧ p ≤ 0.999 :=
    hinv (oid, tl) (alistGet?_mem houter) (threat, p) (alistGet?_mem h)
  rw [update_threat_probabilities_eq]
  unfold _normalize lookup_belief
  by_cases hko : oid = o
  · subst hko
    rw [if_neg (by rw [houter]; exact Bool.false_ne_true)]
    rw [alistGet?_alistModify_self, alistGet?_alistModify_self, houter]
    simp only [Option.map_some', Option.some_bind]
    rw [alistGet?_cap_map, alistGet?_mult_map, h]
    simp only [Option.map_some']
    refine ⟨_, rfl, ?_, ?_⟩
    · by_cases hrel : (alistGet? likelihoods threat).isSome
      · rw [if_pos hrel]
        by_cases hc : p * evidence_multiplier e > (0.999 : ℚ)
        · rw [if_pos hc]
          exact hbounds.2
        · rw [if_neg hc]
          exact le_mul_of_one_le_right (le_of_lt hbounds.1) (likelihood_multiplier_ge_one e)
      · rw [if_neg hrel]
        by_cases hc : p > (0.999 : ℚ)
        · rw [if_pos hc]
          exact hbounds.2
        · rw [if_neg hc]
    · by_cases hrel : (alistGet? likelihoods threat).isSome
      · rw [if_pos hrel]
        by_cases hc : p * evidence_multiplier e > (0.999 : ℚ)
        · rw [if_pos hc]
        · rw [if_neg hc]
          exact le_of_not_lt hc
      · rw [if_neg hrel]
        by_cases hc : p > (0.999 : ℚ)
        · rw [if_pos hc]
        · rw [if_neg hc]
          exact le_of_not_lt hc
  · have hset : ∀ v, alistGet? (alistSet probs o v) oid = alistGet? probs oid :=
      fun v => alistGet?_alistSet_ne probs o oid v hko
    refine ⟨p, ?_, le_refl p, hbounds.2⟩
    rw [alistGet?_alistModify_ne _ _ _ _ hko, alistGet?_alistModify_ne _ _ _ _ hko]
    split
    · rw [hset, houter]
      simp only [Option.some_bind]
      exact h
    · rw [houter]
      simp only [Option.some_bind]
      exact h

/-- Claim C3: for every object id and threat kind and every call sequence,
the stored belief never decreases from one `update_threat_probabilities` call
to the next; a value that would exceed 0.999 is stored as 0.999, which is
still never below the previous stored value. -/
theorem C3_belief_ratchet (updates : List (ℤ × Evidence)) (o : ℤ) (e : Evidence)
    (oid : ℤ) (threat : String) (p : ℚ)
    (h : lookup_belief (apply_updates updates) oid threat = some p) :
    ∃ p', lookup_belief (update_threat_probabilities (apply_updates updates) o e) oid threat
        = some p' ∧ p ≤ p' ∧ p' ≤ 0.999 :=
  update_belief_step_mono _ (probs_inv_apply_updates updates) o e oid threat p h

/-- Witness for C3 at a concrete input: after one anomalous-evidence update
the belief is 0.0003, and another update keeps it at least 0.0003 and at most
0.999. -/
theorem C3_witness :
    ∃ p', lookup_belief
        (update_threat_probabilities (apply_updates [(101, ⟨0.95, none⟩)]) 101 ⟨0.95, none⟩)
        101 "VBIED_DROPOFF" = some p' ∧ (0.0003 : ℚ) ≤ p' ∧ p' ≤ 0.999 :=
  C3_belief_ratchet [(101, ⟨0.95, none⟩)] 101 ⟨0.95, none⟩ 101 "VBIED_DROPOFF" 0.0003
    (by
      norm_num [apply_updates, update_threat_probabilities_eq, lookup_belief, _normalize,
        alistGet?, alistSet, alistModify, alistGetD, evidence_multiplier, likelihoods,
        ANOMALY_THRESHOLD])

/-! ## Claims C4 and C7: scenario-table step analysis -/

theorem start_scenario_eq (sc : List (ℤ × Scenario)) (track : Track) :
    start_scenario sc track =
      if track.label ∈ vehicle_labels then
        alistSet sc track.obj_id ⟨"VBIED_DROPOFF", 0, none⟩
      else sc :=
  rfl

theorem start_scenario_stage_cases (sc : List (ℤ × Scenario)) (track : Track)
    (ctx : Context) :
    start_scenario_stage sc track ctx = sc ∨
      (alistGet? sc track.obj_id = none ∧
        start_scenario_stage sc track ctx
          = alistSet sc track.obj_id ⟨"VBIED_DROPOFF", 0, none⟩) := by
  unfold start_scenario_stage
  split
  · rename_i hcond
    rw [start_scenario_eq]
    by_cases hlab : track.label ∈ vehicle_labels
    · exact Or.inr ⟨Option.isNone_iff_eq_none.mp hcond.1, by rw [if_pos hlab]⟩
    · exact Or.inl (by rw [if_neg hlab])
  · exact Or.inl rfl

theorem eval_trigger_cases (sc : List (ℤ × Scenario)) (scenario : Scenario) (t : Trigger)
    (track : Track) (ctx : Context) :
    (eval_trigger sc scenario t track ctx).2 = sc ∨
      ∃ ped, eval_trigger sc scenario t track ctx
          = (true, alistModify sc track.obj_id
              (fun s => { s with linked_obj_id := some ped }))
        ∧ t = Trigger.driverExit := by
  cases t
  · exact Or.inl rfl
  · rcases hl : track.history.getLast? with _ | v
    · refine Or.inl ?_
      simp [eval_trigger, hl]
    · rcases hf : check_driver_exit_find v.pos ctx.all_tracks with _ | ped
      · refine Or.inl ?_
        simp [eval_trigger, hl, hf]
      · refine Or.inr ⟨ped, ?_, rfl⟩
        simp [eval_trigger, hl, hf]
  · exact Or.inl rfl

theorem update_scenarios_lookup_ne (sc : List (ℤ × Scenario)) (track : Track)
    (ctx : Context) (k : ℤ) (hk : k ≠ track.obj_id) :
    alistGet? (update_scenarios sc track ctx) k = alistGet? sc k := by
  have h1 : alistGet? (start_scenario_stage sc track ctx) k = alistGet? sc k := by
    rcases start_scenario_stage_cases sc track ctx with h | ⟨-, h⟩
    · rw [h]
    · rw [h]
      exact alistGet?_alistSet_ne _ _ _ _ hk
  unfold update_scenarios
  rcases hs : alistGet? (start_scenario_stage sc track ctx) track.obj_id with _ | scenario
  · simp only [advance_stage, hs]
    exact h1
  · rcases hp : alistGet? playbooks scenario.playbook with _ | playbook
    · simp only [advance_stage, hs, hp]
      exact h1
    · rcases ht : playbook.triggers.get? scenario.state_index with _ | trig
      · simp only [advance_stage, hs, hp, ht]
        exact h1
      · rcases he : eval_trigger (start_scenario_stage sc track ctx) scenario trig track ctx
          with ⟨fired, sc2⟩
        have h2 : alistGet? sc2 k = alistGet? sc k := by
          rcases eval_trigger_cases (start_scenario_stage sc track ctx) scenario trig track
              ctx with hc | ⟨ped, hc, -⟩
          · rw [he] at hc
            have hc2 : sc2 = start_scenario_stage sc track ctx := hc
            rw [hc2]
            exact h1
          · rw [he] at hc
            injection hc with hc1 hc2
            rw [hc2, alistGet?_alistModify_ne _ _ _ _ hk]
            exact h1
        cases fired
        · simp only [advance_stage, hs, hp, ht, he]
          exact h2
        · simp only [advance_stage, hs, hp, ht, he]
          rw [alistGet?_alistModify_ne _ _ _ _ hk]
          exact h2

theorem playbooks_lookup {name : String} {pb : Playbook}
    (h : alistGet? playbooks name = some pb) :
    name = "VBIED_DROPOFF"
    ∧ pb.triggers = [Trigger.stoppedAnomalous, Trigger.driverExit, Trigger.driverSeparation]
    ∧ pb.states = ["APPROACH", "STOPPED_IN_ANOMALOUS_ZONE", "DRIVER_EXIT", "SEPARATION"] := by
  have hmem := alistGet?_mem h
  simp only [playbooks, List.mem_singleton, Prod.mk.injEq] at hmem
  rcases hmem with ⟨h1, h2⟩
  subst h2
  exact ⟨h1, rfl, rfl⟩

theorem vbied_trigger_get {i : ℕ} {t : Trigger}
    (h : [Trigger.stoppedAnomalous, Trigger.driverExit,
        Trigger.driverSeparation].get? i = some t) :
    i < 3 ∧ (t = Trigger.driverExit → i = 1) := by
  match i with
  | 0 =>
      injection h with h
      subst h
      exact ⟨by norm_num, by intro hc; cases hc⟩
  | 1 =>
      injection h with h
      subst h
      exact ⟨by norm_num, fun _ => rfl⟩
  | 2 =>
      injection h with h
      subst h
      exact ⟨by norm_num, by intro hc; cases hc⟩
  | n + 3 =>
      simp [List.get?] at h

/-- The no-change case of a scenario-table step. -/
theorem scen_step_refl (sc1 : List (ℤ × Scenario)) (hinv1 : ScenTableInv sc1)
    (res : List (ℤ × Scenario)) (heq : res = sc1) :
    ScenTableInv res
    ∧ ∀ k s, alistGet? sc1 k = some s →
        ∃ s', alistGet? res k = some s'
          ∧ s.state_index ≤ s'.state_index
          ∧ s'.state_index ≤ s.state_index + 1
          ∧ s'.state_index ≤ 3
          ∧ s'.playbook = s.playbook
          ∧ ∀ x, s.linked_obj_id = some x → s'.linked_obj_id = some x := by
  subst heq
  refine ⟨hinv1, ?_⟩
  intro k s h
  rcases hinv1.2 (k, s) (alistGet?_mem h) with ⟨-, hle3, -⟩
  exact ⟨s, h, le_refl _, Nat.le_succ _, hle3, rfl, fun x hx => hx⟩

/-- One `advance_stage` call preserves the table invariant and changes each
stored scenario by at most one state-index increment, never changing a
linked object once set. -/
theorem advance_stage_step (sc1 : List (ℤ × Scenario)) (hinv1 : ScenTableInv sc1)
    (track : Track) (ctx : Context) :
    ScenTableInv (advance_stage sc1 track ctx)
    ∧ ∀ k s, alistGet? sc1 k = some s →
        ∃ s', alistGet? (advance_stage sc1 track ctx) k = some s'
          ∧ s.state_index ≤ s'.state_index
          ∧ s'.state_index ≤ s.state_index + 1
          ∧ s'.state_index ≤ 3
          ∧ s'.playbook = s.playbook
          ∧ ∀ x, s.linked_obj_id = some x → s'.linked_obj_id = some x := by
  rcases hs : alistGet? sc1 track.obj_id with _ | scenario
  · exact scen_step_refl sc1 hinv1 _ (by simp only [advance_stage, hs])
  have hscinv : ScenEntryInv scenario := hinv1.2 (track.obj_id, scenario) (alistGet?_mem hs)
  obtain ⟨hpbn, hle3, hlink⟩ := hscinv
  rcases hp : alistGet? playbooks scenario.playbook with _ | playbook
  · exact scen_step_refl sc1 hinv1 _ (by simp only [advance_stage, hs, hp])
  rcases playbooks_lookup hp with ⟨-, htrigs, -⟩
  rcases ht : playbook.triggers.get? scenario.state_index with _ | trig
  · exact scen_step_refl sc1 hinv1 _ (by simp only [advance_stage, hs, hp, ht])
  have ht' := ht
  rw [htrigs] at ht'
  rcases vbied_trigger_get ht' with ⟨hlt, hdx⟩
  rcases he : eval_trigger sc1 scenario trig track ctx with ⟨fired, sc2⟩
  rcases eval_trigger_cases sc1 scenario trig track ctx with hc | ⟨ped, hc, htrig⟩
  · -- the trigger evaluation did not touch the table
    have hsc2 : sc2 = sc1 := by rw [he] at hc; exact hc
    cases fired
    · refine scen_step_refl sc1 hinv1 _ ?_
      simp only [advance_stage, hs, hp, ht, he]
      exact hsc2
    · have heq : advance_stage sc1 track ctx
          = alistModify sc1 track.obj_id
              (fun s => { s with state_index := s.state_index + 1 }) := by
        simp only [advance_stage, hs, hp, ht, he]
        rw [hsc2]
      rw [heq]
      constructor
      · constructor
        · rw [alistModify_map_fst]
          exact hinv1.1
        · intro e he'
          rcases mem_alistModify he' with ⟨e₀, he₀, heq'⟩
          by_cases hk0 : e₀.1 = track.obj_id
          · rw [if_pos hk0] at heq'
            have he₀' : (track.obj_id, e₀.2) ∈ sc1 := by
              rw [← hk0]
              exact he₀
            have := alistGet?_of_mem_nodup hinv1.1 he₀'
            rw [hs] at this
            injection this with hval
            subst heq'
            rw [← hval]
            exact ⟨hpbn, Nat.succ_le_of_lt hlt,
              fun x hx => le_trans (hlink x hx) (Nat.le_succ _)⟩
          · rw [if_neg hk0] at heq'
            rw [heq']
            exact hinv1.2 e₀ he₀
      · intro k s h
        by_cases hk : k = track.obj_id
        · subst hk
          rw [hs] at h
          injection h with hval
          subst hval
          rw [alistGet?_alistModify_self, hs]
          exact ⟨_, rfl, Nat.le_succ _, le_refl _, Nat.succ_le_of_lt hlt, rfl,
            fun x hx => hx⟩
        · rw [alistGet?_alistModify_ne _ _ _ _ hk]
          rcases hinv1.2 (k, s) (alistGet?_mem h) with ⟨-, hle3', -⟩
          exact ⟨s, h, le_refl _, Nat.le_succ _, hle3', rfl, fun x hx => hx⟩
  · -- driver-exit fired: the linked object is written, then the state advances
    rw [he] at hc
    injection hc with hfired hsc2
    subst htrig
    have hidx : scenario.state_index = 1 := hdx rfl
    have hlinknone : scenario.linked_obj_id = none := by
      rcases hl : scenario.linked_obj_id with _ | x
      · rfl
      · have := hlink x hl
        rw [hidx] at this
        omega
    cases fired
    · exact absurd hfired (by simp)
    · have heq : advance_stage sc1 track ctx
          = alistModify
              (alistModify sc1 track.obj_id
                (fun s => { s with linked_obj_id := some ped }))
              track.obj_id
              (fun s => { s with state_index := s.state_index + 1 }) := by
        simp only [advance_stage, hs, hp, ht, he]
        rw [hsc2]
      rw [heq]
      constructor
      · constructor
        · rw [alistModify_map_fst, alistModify_map_fst]
          exact hinv1.1
        · intro e he'
          rcases mem_alistModify he' with ⟨e₁, he₁, heq1⟩
          rcases mem_alistModify he₁ with ⟨e₀, he₀, heq0⟩
          by_cases hk0 : e₀.1 = track.obj_id
          · rw [if_pos hk0] at heq0
            subst heq0
            rw [if_pos hk0] at heq1
            have he₀' : (track.obj_id, e₀.2) ∈ sc1 := by
              rw [← hk0]
              exact he₀
            have := alistGet?_of_mem_nodup hinv1.1 he₀'
            rw [hs] at this
            injection this with hval
            subst heq1
            rw [← hval]
            refine ⟨hpbn, Nat.succ_le_of_lt hlt, ?_⟩
            intro x hx
            have h2 : 2 ≤ scenario.state_index + 1 := by omega
            exact h2
          · rw [if_neg hk0] at heq0
            have hk1 : ¬(e₁.1 = track.obj_id) := by rw [heq0]; exact hk0
            rw [if_neg hk1] at heq1
            rw [heq1, heq0]
            exact hinv1.2 e₀ he₀
      · intro k s h
        by_cases hk : k = track.obj_id
        · subst hk
          rw [hs] at h
          injection h with hval
          subst hval
          rw [alistGet?_alistModify_self, alistGet?_alistModify_self, hs]
          refine ⟨_, rfl, Nat.le_succ _, le_refl _, Nat.succ_le_of_lt hlt, rfl, ?_⟩
          intro x hx
          rw [hlinknone] at hx
          cases hx
        · rw [alistGet?_alistModify_ne _ _ _ _ hk, alistGet?_alistModify_ne _ _ _ _ hk]
          rcases hinv1.2 (k, s) (alistGet?_mem h) with ⟨-, hle3', -⟩
          exact ⟨s, h, le_refl _, Nat.le_succ _, hle3', rfl, fun x hx => hx⟩

/-- One full `update_scenarios` call: invariant preservation plus the
per-entry step relation. -/
theorem update_scenarios_step (sc : List (ℤ × Scenario)) (hinv : ScenTableInv sc)
    (track : Track) (ctx : Context) :
    ScenTableInv (update_scenarios sc track ctx)
    ∧ ∀ k s, alistGet? sc k = some s →
        ∃ s', alistGet? (update_scenarios sc track ctx) k = some s'
          ∧ s.state_index ≤ s'.state_index
          ∧ s'.state_index ≤ s.state_index + 1
          ∧ s'.state_index ≤ 3
          ∧ s'.playbook = s.playbook
          ∧ ∀ x, s.linked_obj_id = some x → s'.linked_obj_id = some x := by
  have hinv1 : ScenTableInv (start_scenario_stage sc track ctx) := by
    rcases start_scenario_stage_cases sc track ctx with h | ⟨hnone, h⟩
    · rw [h]
      exact hinv
    · rw [h]
      constructor
      · exact alistSet_map_fst_nodup _ hnone hinv.1
      · intro e he'
        rcases mem_alistSet he' with hm | hnew
        · exact hinv.2 e hm
        · subst hnew
          exact ⟨rfl, by norm_num, by intro x hx; cases hx⟩
  have hpre : ∀ k s, alistGet? sc k = some s →
      alistGet? (start_scenario_stage sc track ctx) k = some s := by
    intro k s h
    rcases start_scenario_stage_cases sc track ctx with heq | ⟨hnone, heq⟩
    · rw [heq]
      exact h
    · rw [heq]
      by_cases hk : k = track.obj_id
      · subst hk
        rw [h] at hnone
        cases hnone
      · rw [alistGet?_alistSet_ne _ _ _ _ hk]
        exact h
  have hadv := advance_stage_step _ hinv1 track ctx
  refine ⟨hadv.1, ?_⟩
  intro k s hks
  exact hadv.2 k s (hpre k s hks)

theorem scen_inv_apply (steps : List (Track × Context)) :
    ScenTableInv (apply_scenario_updates steps) := by
  have hgen : ∀ (l : List (Track × Context)) (sc : List (ℤ × Scenario)), ScenTableInv sc →
      ScenTableInv (l.foldl (fun sc tc => update_scenarios sc tc.1 tc.2) sc) := by
    intro l
    induction l with
    | nil => exact fun sc h => h
    | cons tc rest ih => exact fun sc h => ih _ (update_scenarios_step sc h tc.1 tc.2).1
  refine hgen steps [] ⟨by simp, ?_⟩
  intro e he
  simp at he

/-- Claim C4: for every object with an active scenario and every sequence of
`update_scenarios` calls, the scenario's state index is monotonically
non-decreasing, increases by at most 1 per call, and never exceeds the
number of triggers (3) of its playbook. -/
theorem C4_state_index_monotone (steps : List (Track × Context)) (t : Track) (c : Context)
    (oid : ℤ) (s : Scenario)
    (h : alistGet? (apply_scenario_updates steps) oid = some s) :
    ∃ s', alistGet? (update_scenarios (apply_scenario_updates steps) t c) oid = some s'
      ∧ s.state_index ≤ s'.state_index
      ∧ s'.state_index ≤ s.state_index + 1
      ∧ s'.state_index ≤ 3 := by
  rcases (update_scenarios_step _ (scen_inv_apply steps) t c).2 oid s h
    with ⟨s', h1, h2, h3, h4, -, -⟩
  exact ⟨s', h1, h2, h3, h4⟩

/-- Witness for C4 at a concrete input: one call creates a scenario for an
anomalous stopped van and advances it to state 1; the next call keeps the
index between 1 and 2 and at most 3. -/
theorem C4_witness :
    ∃ s', alistGet?
        (update_scenarios
          (apply_scenario_updates
            [(⟨101, "van", [⟨(430, 375), 1⟩]⟩, ⟨[], [], 0.95, true⟩)])
          ⟨101, "van", [⟨(430, 375), 1⟩]⟩ ⟨[], [], 0.95, true⟩) 101 = some s'
      ∧ (1 : ℕ) ≤ s'.state_index
      ∧ s'.state_index ≤ 1 + 1
      ∧ s'.state_index ≤ 3 :=
  C4_state_index_monotone
    [(⟨101, "van", [⟨(430, 375), 1⟩]⟩, ⟨[], [], 0.95, true⟩)]
    ⟨101, "van", [⟨(430, 375), 1⟩]⟩ ⟨[], [], 0.95, true⟩ 101
    ⟨"VBIED_DROPOFF", 1, none⟩ (by with_unfolding_all decide)

/-- Claim C7: a scenario's linked object id, once set, never changes for the
remainder of the scenario's lifetime (scenarios are never removed, the write
happens at the single successful driver-exit evaluation — reaching state 2 —
and every later call preserves the stored id). -/
theorem C7_linked_object_immutable (steps : List (Track × Context)) (t : Track)
    (c : Context) (oid : ℤ) (s : Scenario) (x : ℤ)
    (h : alistGet? (apply_scenario_updates steps) oid = some s)
    (hx : s.linked_obj_id = some x) :
    ∃ s', alistGet? (update_scenarios (apply_scenario_updates steps) t c) oid = some s'
      ∧ s'.linked_obj_id = some x := by
  rcases (update_scenarios_step _ (scen_inv_apply steps) t c).2 oid s h
    with ⟨s', h1, -, -, -, -, h6⟩
  exact ⟨s', h1, h6 x hx⟩

/-- Witness for C7 at a concrete input: after the driver-exit evaluation
links pedestrian 202, a further call leaves the linked id unchanged. -/
theorem C7_witness :
    ∃ s', alistGet?
        (update_scenarios
          (apply_scenario_updates
            [(⟨101, "van", [⟨(0, 0), 1⟩]⟩, ⟨[], [], 0.95, true⟩),
             (⟨101, "van", [⟨(0, 0), 1⟩]⟩,
              ⟨[(202, ⟨202, "pedestrian", [⟨(10, 0), 2⟩]⟩)], [], 0, false⟩)])
          ⟨101, "van", [⟨(0, 0), 1⟩]⟩ ⟨[], [], 0, false⟩) 101 = some s'
      ∧ s'.linked_obj_id = some 202 :=
  C7_linked_object_immutable
    [(⟨101, "van", [⟨(0, 0), 1⟩]⟩, ⟨[], [], 0.95, true⟩),
     (⟨101, "van", [⟨(0, 0), 1⟩]⟩,
      ⟨[(202, ⟨202, "pedestrian", [⟨(10, 0), 2⟩]⟩)], [], 0, false⟩)]
    ⟨101, "van", [⟨(0, 0), 1⟩]⟩ ⟨[], [], 0, false⟩ 101
    ⟨"VBIED_DROPOFF", 2, some 202⟩ 202 (by with_unfolding_all decide) rfl

/-! ## Claim C9: a malformed detection aborts the frame -/

/-- On a fully-formed detection the raw step agrees with the plain
`_update_tracks` loop body and never raises. -/
theorem _update_tracks_step_raw_coe (tks : List (ℤ × Track)) (d : Detection) (t : ℚ) :
    _update_tracks_step_raw tks (toRaw d) t =
      some (alistModify
        (if (alistGet? tks d.obj_id).isNone then
          alistSet tks d.obj_id ⟨d.obj_id, d.label, []⟩
        else tks)
        d.obj_id
        (fun tr => { tr with history := tr.history ++ [⟨_get_center d.bbox, t⟩] })) := by
  unfold _update_tracks_step_raw toRaw
  rcases hg : alistGet? tks d.obj_id with _ | tr
  · simp [hg]
  · simp [hg]

/-- On fully-formed input the raw track update agrees with `_update_tracks`
and reports success. -/
theorem _update_tracks_raw_coe (tks : List (ℤ × Track)) (dets : List Detection) (t : ℚ) :
    _update_tracks_raw tks (dets.map toRaw) t = (_update_tracks tks dets t, true) := by
  induction dets generalizing tks with
  | nil => rfl
  | cons d rest ih =>
      simp only [List.map_cons, _update_tracks_raw, _update_tracks_step_raw_coe]
      rw [ih]
      rfl

/-- Processing a raw detection list that succeeds on `pre`, then meets a
malformed detection `d`, keeps the effects of `pre`, stops at `d`, and never
touches the remaining detections. -/
theorem _update_tracks_raw_failfast (pre : List RawDetection) :
    ∀ (tks tks₁ : List (ℤ × Track)) (post : List RawDetection) (d : RawDetection) (t : ℚ),
      _update_tracks_raw tks pre t = (tks₁, true) →
      _update_tracks_step_raw tks₁ d t = none →
      _update_tracks_raw tks (pre ++ d :: post) t = (tks₁, false) := by
  induction pre with
  | nil =>
      intro tks tks₁ post d t hpre hd
      have hpre' : (tks, true) = (tks₁, true) := hpre
      injection hpre' with h1 h2
      subst h1
      simp only [List.nil_append, _update_tracks_raw, hd]
  | cons d0 rest ih =>
      intro tks tks₁ post d t hpre hd
      simp only [_update_tracks_raw] at hpre
      rcases hsr : _update_tracks_step_raw tks d0 t with _ | tks2
      · rw [hsr] at hpre
        injection hpre with h1 h2
        cases h2
      · rw [hsr] at hpre
        simp only [List.cons_append, _update_tracks_raw, hsr]
        exact ih tks2 tks₁ post d t hpre hd

/-- Counterexample to claim C9 as stated: in a frame whose first detection
lacks `obj_id` and whose second is a well-formed detection of object 101,
the frame's processing raises at the malformed detection, and the remaining
detection of the same frame is NOT processed — object 101 ends up with no
track at all (and, the source having no handler, the error propagates to the
caller's frame loop). -/
theorem C9_counterexample :
    process_frame_data_raw init_state
        ⟨1, [⟨none, some "van", some (0, 0, 10, 10)⟩,
             ⟨some 101, some "van", some (100, 240, 60, 50)⟩]⟩
      = Except.error init_state
    ∧ alistGet? init_state.tracked_objects 101 = none :=
  ⟨by with_unfolding_all rfl, rfl⟩

/-- Claim C9 (amended): a malformed detection makes the frame fail fast at
that detection: the track mutations of the detections before it persist
unchanged (no track is silently corrupted), the offending detection and all
remaining detections of the frame are not processed, the frame's scoring,
playbook and fusion layers do not run, and the error propagates to the
caller. -/
theorem C9_amended_failfast (st : DetectorState) (pre post : List RawDetection)
    (d : RawDetection) (ts : ℚ) (tks₁ : List (ℤ × Track))
    (hpre : _update_tracks_raw st.tracked_objects pre ts = (tks₁, true))
    (hd : _update_tracks_step_raw tks₁ d ts = none) :
    process_frame_data_raw st ⟨ts, pre ++ d :: post⟩
      = Except.error { st with tracked_objects := tks₁ } := by
  unfold process_frame_data_raw
  rw [_update_tracks_raw_failfast pre st.tracked_objects tks₁ post d ts hpre hd]

/-- Witness for the amended C9 at a concrete input: detection of van 101 is
applied, the following label-less new detection 202 raises, and car 303 is
never processed. -/
theorem C9_witness :
    process_frame_data_raw init_state
        ⟨1, [⟨some 101, some "van", some (100, 240, 60, 50)⟩,
             ⟨some 202, none, some (0, 0, 4, 4)⟩,
             ⟨some 303, some "car", some (5, 5, 2, 2)⟩]⟩
      = Except.error
          { init_state with
            tracked_objects := [(101, ⟨101, "van", [⟨(130, 265), 1⟩]⟩)] } :=
  C9_amended_failfast init_state
    [⟨some 101, some "van", some (100, 240, 60, 50)⟩]
    [⟨some 303, some "car", some (5, 5, 2, 2)⟩]
    ⟨some 202, none, some (0, 0, 4, 4)⟩ 1
    [(101, ⟨101, "van", [⟨(130, 265), 1⟩]⟩)]
    (by with_unfolding_all rfl) (by with_unfolding_all rfl)

/-! ## Claim C2: a quiet vehicle is never alerted -/

theorem update_threat_probabilities_lookup_ne (pr : ProbTable) (o : ℤ) (e : Evidence)
    (k : ℤ) (hk : k ≠ o) :
    alistGet? (update_threat_probabilities pr o e) k = alistGet? pr k := by
  rw [update_threat_probabilities_eq]
  unfold _normalize
  rw [alistGet?_alistModify_ne _ _ _ _ hk, alistGet?_alistModify_ne _ _ _ _ hk]
  split
  · exact alistGet?_alistSet_ne _ _ _ _ hk
  · rfl

theorem update_threat_probabilities_keys_nodup (pr : ProbTable) (o : ℤ) (e : Evidence)
    (h : (pr.map Prod.fst).Nodup) :
    ((update_threat_probabilities pr o e).map Prod.fst).Nodup := by
  rw [update_threat_probabilities_eq]
  unfold _normalize
  rw [alistModify_map_fst, alistModify_map_fst]
  split
  · rename_i hnone
    exact alistSet_map_fst_nodup _ (Option.isNone_iff_eq_none.mp hnone) h
  · exact h

theorem update_tracks_step_inv (objId : ℤ) (tks : List (ℤ × Track)) (det : Detection)
    (t : ℚ) (hinv : TrackTableInv objId tks)
    (hd : det.obj_id = objId → det.label ∈ vehicle_labels) :
    TrackTableInv objId
      (alistModify
        (if (alistGet? tks det.obj_id).isNone then
          alistSet tks det.obj_id ⟨det.obj_id, det.label, []⟩
        else tks)
        det.obj_id
        (fun tr => { tr with history := tr.history ++ [⟨_get_center det.bbox, t⟩] })) := by
  have hinv1 : TrackTableInv objId
      (if (alistGet? tks det.obj_id).isNone then
        alistSet tks det.obj_id ⟨det.obj_id, det.label, []⟩
      else tks) := by
    split
    · rename_i hnone
      have hnone' := Option.isNone_iff_eq_none.mp hnone
      constructor
      · exact alistSet_map_fst_nodup _ hnone' hinv.1
      · intro e he
        rcases mem_alistSet he with hm | hnew
        · exact hinv.2 e hm
        · subst hnew
          exact ⟨rfl, fun hk => hd hk⟩
    · exact hinv
  constructor
  · rw [alistModify_map_fst]
    exact hinv1.1
  · intro e he
    rcases mem_alistModify he with ⟨e₀, he₀, heq⟩
    by_cases hk : e₀.1 = det.obj_id
    · rw [if_pos hk] at heq
      subst heq
      rcases hinv1.2 e₀ he₀ with ⟨h1, h2⟩
      exact ⟨h1, h2⟩
    · rw [if_neg hk] at heq
      rw [heq]
      exact hinv1.2 e₀ he₀

theorem update_tracks_inv (objId : ℤ) (dets : List Detection) :
    ∀ (tks : List (ℤ × Track)) (t : ℚ), TrackTableInv objId tks →
      (∀ d ∈ dets, d.obj_id = objId → d.label ∈ vehicle_labels) →
      TrackTableInv objId (_update_tracks tks dets t) := by
  induction dets with
  | nil =>
      intro tks t h _
      exact h
  | cons d rest ih =>
      intro tks t h hd
      have hstep := update_tracks_step_inv objId tks d t h (hd d (List.mem_cons_self _ _))
      have heq : _update_tracks tks (d :: rest) t
          = _update_tracks
              (alistModify
                (if (alistGet? tks d.obj_id).isNone then
                  alistSet tks d.obj_id ⟨d.obj_id, d.label, []⟩
                else tks)
                d.obj_id
                (fun tr => { tr with history := tr.history ++ [⟨_get_center d.bbox, t⟩] }))
              rest t := rfl
      rw [heq]
      exact ih _ t hstep (fun d' hd' => hd d' (List.mem_cons_of_mem _ hd'))

theorem process_object_fst (tracks : List (ℤ × Track)) (speeds_sq : List (ℤ × ℚ))
    (sp : List (ℤ × Scenario) × ProbTable) (entry : ℤ × Track) :
    (process_object tracks speeds_sq sp entry).1 =
      update_scenarios sp.1 entry.2
        ⟨tracks, speeds_sq,
          calculate_anomaly_score entry.2
            (decide (alistGetD speeds_sq entry.1 0 < STOP_SPEED_THRESHOLD_MPS ^ 2)),
          decide (alistGetD speeds_sq entry.1 0 < STOP_SPEED_THRESHOLD_MPS ^ 2)⟩ :=
  rfl

theorem process_object_snd (tracks : List (ℤ × Track)) (speeds_sq : List (ℤ × ℚ))
    (sp : List (ℤ × Scenario) × ProbTable) (entry : ℤ × Track) :
    (process_object tracks speeds_sq sp entry).2 =
      update_threat_probabilities sp.2 entry.1
        ⟨calculate_anomaly_score entry.2
            (decide (alistGetD speeds_sq entry.1 0 < STOP_SPEED_THRESHOLD_MPS ^ 2)),
          get_matched_playbook_info
            (update_scenarios sp.1 entry.2
              ⟨tracks, speeds_sq,
                calculate_anomaly_score entry.2
                  (decide (alistGetD speeds_sq entry.1 0 < STOP_SPEED_THRESHOLD_MPS ^ 2)),
                decide (alistGetD speeds_sq entry.1 0 < STOP_SPEED_THRESHOLD_MPS ^ 2)⟩)
            entry.1⟩ :=
  rfl

theorem process_frame_data_eq (st : DetectorState) (f : FrameData) :
    process_frame_data st f =
      (⟨frame_tracks st f,
        ((frame_tracks st f).foldl
          (process_object (frame_tracks st f)
            ((frame_tracks st f).map (fun p => (p.1, _calculate_speed_sq_mps p.2))))
          (st.active_scenarios, st.threat_probabilities)).1,
        ((frame_tracks st f).foldl
          (process_object (frame_tracks st f)
            ((frame_tracks st f).map (fun p => (p.1, _calculate_speed_sq_mps p.2))))
          (st.active_scenarios, st.threat_probabilities)).2⟩,
       get_prioritized_alerts
        ((frame_tracks st f).foldl
          (process_object (frame_tracks st f)
            ((frame_tracks st f).map (fun p => (p.1, _calculate_speed_sq_mps p.2))))
          (st.active_scenarios, st.threat_probabilities)).2) :=
  rfl

theorem state_at_succ (frames : List FrameData) (n : ℕ) (hn : n < frames.length) :
    state_at frames (n + 1)
      = (process_frame_data (state_at frames n) (frames.get ⟨n, hn⟩)).1 := by
  unfold state_at run_frames
  rw [List.take_succ, List.getElem?_eq_getElem hn, List.get_eq_getElem]
  rw [List.foldl_append]
  rfl

/-- For a quiet object, the reported playbook info is `none` (no scenario at
all) or state APPROACH. -/
theorem playbook_info_quiet (sc' : List (ℤ × Scenario)) (oid : ℤ)
    (hq : ScenQuiet oid sc') :
    (get_matched_playbook_info sc' oid = none ∧ alistGet? sc' oid = none) ∨
      get_matched_playbook_info sc' oid = some ⟨"VBIED_DROPOFF", "APPROACH"⟩ := by
  rcases hs : alistGet? sc' oid with _ | s
  · exact Or.inl ⟨by simp only [get_matched_playbook_info, hs], rfl⟩
  · right
    rcases hq s hs with ⟨hpb, hst⟩
    have hpbs : alistGet? playbooks "VBIED_DROPOFF"
        = some ⟨["APPROACH", "STOPPED_IN_ANOMALOUS_ZONE", "DRIVER_EXIT", "SEPARATION"],
            [Trigger.stoppedAnomalous, Trigger.driverExit, Trigger.driverSeparation]⟩ := rfl
    have hget0 : (["APPROACH", "STOPPED_IN_ANOMALOUS_ZONE", "DRIVER_EXIT",
        "SEPARATION"].get? 0) = some "APPROACH" := rfl
    simp only [get_matched_playbook_info, hs, hpb, hpbs, hst, hget0]

theorem multiplier_one_of_approach_info (a : ℚ) :
    evidence_multiplier ⟨a, some ⟨"VBIED_DROPOFF", "APPROACH"⟩⟩ = 1 := by
  with_unfolding_all rfl

theorem multiplier_one_of_no_info (a : ℚ) (h : ¬(a > ANOMALY_THRESHOLD)) :
    evidence_multiplier ⟨a, none⟩ = 1 := by
  show (if a > ANOMALY_THRESHOLD then
      1 * alistGetD (alistGetD likelihoods "VBIED_DROPOFF" []) "high_anomaly" 1
    else 1) = 1
  rw [if_neg h]

/-- A multiplier-1 update leaves a quiet belief row quiet. -/
theorem update_probs_quiet_self (pr : ProbTable) (oid : ℤ) (ev : Evidence)
    (h2 : ProbsQuiet oid pr) (hm : evidence_multiplier ev = 1) :
    ProbsQuiet oid (update_threat_probabilities pr oid ev) := by
  obtain ⟨hnd, hq⟩ := h2
  refine ⟨update_threat_probabilities_keys_nodup pr oid ev hnd, ?_⟩
  intro tl htl
  rw [update_threat_probabilities_eq] at htl
  unfold _normalize at htl
  rw [alistGet?_alistModify_self, alistGet?_alistModify_self] at htl
  rcases hg : alistGet? pr oid with _ | tl0
  · rw [if_pos (by rw [hg]; rfl)] at htl
    rw [alistGet?_alistSet_self] at htl
    simp only [Option.map_some'] at htl
    injection htl with htl
    rw [← htl, hm]
    norm_num [likelihoods, alistGet?]
  · rw [if_neg (by rw [hg]; simp)] at htl
    rw [hg] at htl
    simp only [Option.map_some'] at htl
    injection htl with htl
    rw [← htl, hq tl0 hg, hm]
    norm_num [likelihoods, alistGet?]

/-- An `update_scenarios` call on the object itself, when the entry trigger
does not fire, leaves the object quiet; and if the object still has no
scenario afterwards (with a vehicle label) its anomaly score was at most the
threshold. -/
theorem update_scenarios_quiet_self (sc : List (ℤ × Scenario)) (track : Track)
    (ctx : Context) (oid : ℤ) (hoid : track.obj_id = oid)
    (hq : ScenQuiet oid sc) (hlab : track.label ∈ vehicle_labels)
    (hfired : (ctx.is_stopped && decide (ctx.anomaly_score > ANOMALY_THRESHOLD)) = false) :
    ScenQuiet oid (update_scenarios sc track ctx)
    ∧ (alistGet? (update_scenarios sc track ctx) oid = none →
        ¬(ctx.anomaly_score > ANOMALY_THRESHOLD)) := by
  subst hoid
  have hq1 : ∀ s, alistGet? (start_scenario_stage sc track ctx) track.obj_id = some s →
      s.playbook = "VBIED_DROPOFF" ∧ s.state_index = 0 := by
    rcases start_scenario_stage_cases sc track ctx with h | ⟨hnone, h⟩
    · rw [h]
      exact hq
    · rw [h]
      intro s hs
      rw [alistGet?_alistSet_self] at hs
      injection hs with hs
      subst hs
      exact ⟨rfl, rfl⟩
  rcases hs : alistGet? (start_scenario_stage sc track ctx) track.obj_id with _ | scenario
  · have heq : update_scenarios sc track ctx = start_scenario_stage sc track ctx := by
      unfold update_scenarios
      simp only [advance_stage, hs]
    constructor
    · intro s hlook
      rw [heq] at hlook
      exact hq1 s hlook
    · intro _ hA
      rcases hg : alistGet? sc track.obj_id with _ | s0
      · have hcond : (alistGet? sc track.obj_id).isNone
            ∧ ctx.anomaly_score > ANOMALY_THRESHOLD := ⟨by rw [hg]; rfl, hA⟩
        have hst : start_scenario_stage sc track ctx = start_scenario sc track := by
          unfold start_scenario_stage
          rw [if_pos hcond]
        rw [hst, start_scenario_eq, if_pos hlab, alistGet?_alistSet_self] at hs
        cases hs
      · have hcond : ¬((alistGet? sc track.obj_id).isNone
            ∧ ctx.anomaly_score > ANOMALY_THRESHOLD) := by
          rw [hg]
          simp
        have hst : start_scenario_stage sc track ctx = sc := by
          unfold start_scenario_stage
          rw [if_neg hcond]
        rw [hst, hg] at hs
        cases hs
  · rcases hq1 scenario hs with ⟨hpb, hst0⟩
    have hpbs : alistGet? playbooks scenario.playbook
        = some ⟨["APPROACH", "STOPPED_IN_ANOMALOUS_ZONE", "DRIVER_EXIT", "SEPARATION"],
            [Trigger.stoppedAnomalous, Trigger.driverExit, Trigger.driverSeparation]⟩ := by
      rw [hpb]
      rfl
    have htrg : [Trigger.stoppedAnomalous, Trigger.driverExit,
        Trigger.driverSeparation].get? scenario.state_index
          = some Trigger.stoppedAnomalous := by
      rw [hst0]
      rfl
    have he : eval_trigger (start_scenario_stage sc track ctx) scenario
        Trigger.stoppedAnomalous track ctx = (false, start_scenario_stage sc track ctx) := by
      unfold eval_trigger
      rw [hfired]
    have heq : update_scenarios sc track ctx = start_scenario_stage sc track ctx := by
      unfold update_scenarios
      simp only [advance_stage, hs, hpbs, htrg, he]
    constructor
    · intro s hlook
      rw [heq] at hlook
      exact hq1 s hlook
    · intro hnone
      rw [heq, hs] at hnone
      cases hnone

/-- Quiet beliefs produce no alert for the object. -/
theorem no_alert_of_quiet (objId : ℤ) (pr : ProbTable) (h2 : ProbsQuiet objId pr) :
    ∀ a ∈ get_prioritized_alerts pr, a.obj_id ≠ objId := by
  intro a ha hid
  unfold get_prioritized_alerts at ha
  rw [List.mem_mergeSort] at ha
  rcases mem_collect_alerts.mp ha with ⟨tl, hmem, htp, hgt⟩
  rw [hid] at hmem
  have hlook : alistGet? pr objId = some tl := alistGet?_of_mem_nodup h2.1 hmem
  have htl := h2.2 tl hlook
  rw [htl] at htp
  simp only [List.mem_singleton, Prod.mk.injEq] at htp
  rcases htp with ⟨-, hp⟩
  rw [hp] at hgt
  norm_num [ALERT_PROBABILITY_THRESHOLD] at hgt

/-- One iteration of the per-object loop preserves the quiet invariant of a
quiet vehicle. -/
theorem process_object_quiet (objId : ℤ) (tracks : List (ℤ × Track))
    (htr : TrackTableInv objId tracks)
    (hquiet : track_stopped_anomalous tracks objId = false)
    (e : ℤ × Track) (he : e ∈ tracks) (sc : List (ℤ × Scenario)) (pr : ProbTable)
    (h1 : ScenQuiet objId sc) (h2 : ProbsQuiet objId pr) :
    ScenQuiet objId (process_object tracks
        (tracks.map (fun p => (p.1, _calculate_speed_sq_mps p.2))) (sc, pr) e).1
    ∧ ProbsQuiet objId (process_object tracks
        (tracks.map (fun p => (p.1, _calculate_speed_sq_mps p.2))) (sc, pr) e).2 := by
  obtain ⟨oid, track⟩ := e
  have hoid : track.obj_id = oid := (htr.2 (oid, track) he).1
  by_cases hne : oid = objId
  · -- the distinguished object's own iteration
    subst hne
    have hlab : track.label ∈ vehicle_labels := (htr.2 (oid, track) he).2 rfl
    have htrl : alistGet? tracks oid = some track := by
      rw [← hoid]
      exact alistGet?_of_mem_nodup htr.1 (by rw [hoid]; exact he)
    have hsa : stopped_anomalous track = false := by
      simp only [track_stopped_anomalous, htrl] at hquiet
      exact hquiet
    have hspd : alistGetD (tracks.map (fun p => (p.1, _calculate_speed_sq_mps p.2))) oid 0
        = _calculate_speed_sq_mps track := by
      unfold alistGetD
      rw [alistGet?_map_snd, htrl]
      rfl
    have hstop_eq : decide (alistGetD
          (tracks.map (fun p => (p.1, _calculate_speed_sq_mps p.2))) oid 0
          < STOP_SPEED_THRESHOLD_MPS ^ 2) = is_stopped_dec track := by
      rw [hspd]
      rfl
    have hscq := update_scenarios_quiet_self sc track
      ⟨tracks, tracks.map (fun p => (p.1, _calculate_speed_sq_mps p.2)),
        calculate_anomaly_score track (is_stopped_dec track), is_stopped_dec track⟩
      oid hoid h1 hlab (by exact hsa)
    constructor
    · intro s hlook
      rw [process_object_fst] at hlook
      simp only [hstop_eq] at hlook
      exact hscq.1 s hlook
    · rw [process_object_snd]
      simp only [hstop_eq]
      rcases playbook_info_quiet _ oid hscq.1 with ⟨hinfo, hnone⟩ | hinfo
      · rw [hinfo]
        exact update_probs_quiet_self pr oid _ h2
          (multiplier_one_of_no_info _ (hscq.2 hnone))
      · rw [hinfo]
        exact update_probs_quiet_self pr oid _ h2 (multiplier_one_of_approach_info _)
  · -- another object's iteration never touches the distinguished rows
    constructor
    · intro s hlook
      rw [process_object_fst] at hlook
      rw [update_scenarios_lookup_ne _ _ _ objId (by rw [hoid]; exact Ne.symm hne)] at hlook
      exact h1 s hlook
    · constructor
      · rw [process_object_snd]
        exact update_threat_probabilities_keys_nodup _ _ _ h2.1
      · intro tl hlook
        rw [process_object_snd] at hlook
        rw [update_threat_probabilities_lookup_ne _ _ _ objId (Ne.symm hne)] at hlook
        exact h2.2 tl hlook

/-- The whole per-object loop preserves the quiet invariant. -/
theorem process_objects_quiet (objId : ℤ) (tracks : List (ℤ × Track))
    (htr : TrackTableInv objId tracks)
    (hquiet : track_stopped_anomalous tracks objId = false) :
    ∀ (l : List (ℤ × Track)), (∀ e ∈ l, e ∈ tracks) →
      ∀ sc pr, ScenQuiet objId sc → ProbsQuiet objId pr →
        ScenQuiet objId
          (l.foldl (process_object tracks
            (tracks.map (fun p => (p.1, _calculate_speed_sq_mps p.2)))) (sc, pr)).1
        ∧ ProbsQuiet objId
          (l.foldl (process_object tracks
            (tracks.map (fun p => (p.1, _calculate_speed_sq_mps p.2)))) (sc, pr)).2 := by
  intro l
  induction l with
  | nil =>
      intro _ sc pr hA hB
      exact ⟨hA, hB⟩
  | cons e rest ih =>
      intro hsub sc pr hA hB
      have he : e ∈ tracks := hsub e (List.mem_cons_self _ _)
      have hrest : ∀ x ∈ rest, x ∈ tracks := fun x hx => hsub x (List.mem_cons_of_mem _ hx)
      rw [List.foldl_cons]
      have hstep := process_object_quiet objId tracks htr hquiet e he sc pr hA hB
      have hpair : process_object tracks
          (tracks.map (fun p => (p.1, _calculate_speed_sq_mps p.2))) (sc, pr) e
          = ((process_object tracks
              (tracks.map (fun p => (p.1, _calculate_speed_sq_mps p.2))) (sc, pr) e).1,
             (process_object tracks
              (tracks.map (fun p => (p.1, _calculate_speed_sq_mps p.2))) (sc, pr) e).2) :=
        rfl
      rw [hpair]
      exact ih hrest _ _ hstep.1 hstep.2

/-- One frame of processing preserves the quiet invariant of a quiet vehicle
and produces no alert naming it. -/
theorem process_frame_quiet (objId : ℤ) (st : DetectorState) (f : FrameData)
    (hinv : QuietInv objId st)
    (hdets : ∀ d ∈ f.detections, d.obj_id = objId → d.label ∈ vehicle_labels)
    (hquiet : track_stopped_anomalous (frame_tracks st f) objId = false) :
    QuietInv objId (process_frame_data st f).1
    ∧ ∀ a ∈ (process_frame_data st f).2, a.obj_id ≠ objId := by
  obtain ⟨htr, hsc, hpr⟩ := hinv
  have htr' : TrackTableInv objId (frame_tracks st f) :=
    update_tracks_inv objId f.detections st.tracked_objects f.timestamp htr hdets
  have hfold := process_objects_quiet objId (frame_tracks st f) htr' hquiet
    (frame_tracks st f) (fun e he => he) st.active_scenarios st.threat_probabilities hsc hpr
  rw [process_frame_data_eq]
  exact ⟨⟨htr', hfold.1, hfold.2⟩, no_alert_of_quiet objId _ hfold.2⟩

/-- Claim C2: a vehicle that is never simultaneously stopped and anomalous
(the entry condition of the playbook — stopped while outside the normal
regions) and is never approached by a newly-appeared pedestrian never
appears in any alert list returned by a frame's `get_prioritized_alerts`,
regardless of how many frames are processed. -/
theorem C2_quiet_vehicle_never_alerted (frames : List FrameData) (objId : ℤ)
    (hveh : ∀ f ∈ frames, ∀ d ∈ f.detections, d.obj_id = objId →
      d.label ∈ vehicle_labels)
    (hstop : ∀ n (hn : n < frames.length),
      track_stopped_anomalous
        (frame_tracks (state_at frames n) (frames.get ⟨n, hn⟩)) objId = false)
    (_happ : ∀ n (hn : n < frames.length),
      approached_by_new_pedestrian
        (frame_tracks (state_at frames n) (frames.get ⟨n, hn⟩)) objId = false) :
    ∀ n (hn : n < frames.length),
      ∀ a ∈ (process_frame_data (state_at frames n) (frames.get ⟨n, hn⟩)).2,
        a.obj_id ≠ objId := by
  have hinv : ∀ n, n ≤ frames.length → QuietInv objId (state_at frames n) := by
    intro n
    induction n with
    | zero =>
        intro _
        exact ⟨⟨List.nodup_nil, fun e he => absurd he (List.not_mem_nil e)⟩,
          fun s hs => Option.noConfusion hs,
          List.nodup_nil, fun tl htl => Option.noConfusion htl⟩
    | succ m ih =>
        intro hm
        have hm' : m < frames.length := Nat.lt_of_lt_of_le (Nat.lt_succ_self m) hm
        rw [state_at_succ frames m hm']
        exact (process_frame_quiet objId _ _ (ih (Nat.le_of_lt hm'))
          (hveh _ (frames.get_mem _ _)) (hstop m hm')).1
  intro n hn a ha
  exact (process_frame_quiet objId _ _ (hinv n (Nat.le_of_lt hn))
    (hveh _ (frames.get_mem _ _)) (hstop n hn)).2 a ha

/-- Witness for C2 at a concrete input: a single frame with a van parked at
(850, 260) — inside both the normal-road and normal-stopping polygons, hence
not anomalous even though it is stopped — produces no alert for it. -/
theorem C2_witness :
    ((process_frame_data
        (state_at [⟨1, [⟨101, "van", (820, 235, 60, 50)⟩]⟩] 0)
        ([⟨1, [⟨101, "van", (820, 235, 60, 50)⟩]⟩].get ⟨0, by norm_num⟩)).2.all
      (fun a => a.obj_id != 101)) = true := by
  rw [List.all_eq_true]
  intro a ha
  refine bne_iff_ne.mpr
    (C2_quiet_vehicle_never_alerted [⟨1, [⟨101, "van", (820, 235, 60, 50)⟩]⟩] 101
      (by intro f hf d hd hid
          simp only [List.mem_singleton] at hf
          subst hf
          simp only [List.mem_singleton] at hd
          subst hd
          simp [vehicle_labels])
      (by intro n hn
          simp only [List.length_singleton] at hn
          interval_cases n
          show track_stopped_anomalous
            (frame_tracks (state_at [⟨1, [⟨101, "van", (820, 235, 60, 50)⟩]⟩] 0)
              ⟨1, [⟨101, "van", (820, 235, 60, 50)⟩]⟩) 101 = false
          with_unfolding_all decide)
      (by intro n hn
          simp only [List.length_singleton] at hn
          interval_cases n
          show approached_by_new_pedestrian
            (frame_tracks (state_at [⟨1, [⟨101, "van", (820, 235, 60, 50)⟩]⟩] 0)
              ⟨1, [⟨101, "van", (820, 235, 60, 50)⟩]⟩) 101 = false
          with_unfolding_all decide)
      0 (by norm_num) a ha)

end CSES
